import Mathlib

/-!
# Replication stream receiver

A shallow embedding of `service/history/replication/stream_receiver.go` and
`service/history/replication/grpc_stream_client.go`.

Conventions of the embedding:

* Go statements with an effect on a collaborator (logger, stream, scheduler,
  tracker, `go` statements) append an `Event` to the `trace` field of the
  receiver, in program order.
* Values produced by the outside world (`time.Now()`, what `stream.Recv()`
  delivers, whether `stream.Send` fails, which `select` case fires) are
  explicit arguments.
* A stream object is identified by a natural number; `newStream` hands out
  the next unused identifier, which mirrors Go pointer identity of the freshly
  allocated `BiDirectionStream`.
* Instants (`time.Now().UTC()`) and durations are integers (nanoseconds);
  `Time.Add` and `Time.Sub` are addition and subtraction, without the
  saturation of `time.Duration`.
* `Start` and `Stop` are given twice from the same statements: run without
  interruption (`Start`, `Stop`), and statement by statement inside the
  interleaved execution of the goroutines (`stopStep`, `supStep`, `step`).
* One goroutine calls `Start` and `Stop`; a concurrent second caller could only
  fail the compare-and-swap and return.
-/

namespace Replication

/-- Go `error` values; only identity matters to the receiver. -/
structure GoError where
  msg : String
  deriving DecidableEq, Repr

/-- The three values of `common.DaemonStatus*` stored in `StreamReceiver.status`. -/
inductive DaemonStatus where
  | Initialized
  | Started
  | Stopped
  deriving DecidableEq, Repr

/-- Go struct `ClusterShardKey`. -/
structure ClusterShardKey where
  ClusterName : String
  ShardID : Int
  deriving DecidableEq, Repr

/-- Go struct `ClusterShardKeyPair`. -/
structure ClusterShardKeyPair where
  Source : ClusterShardKey
  Target : ClusterShardKey
  deriving DecidableEq, Repr

/-- Go function `NewClusterShardKey`. -/
def NewClusterShardKey (ClusterName : String) (ClusterShardID : Int) : ClusterShardKey :=
  { ClusterName := ClusterName, ShardID := ClusterShardID }

/-- Go struct `WatermarkInfo` (declared next to the task tracker). -/
structure WatermarkInfo where
  Watermark : Int
  Timestamp : Int
  deriving DecidableEq, Repr

/-- Wire message `SyncReplicationState`; the time field is a pointer in Go. -/
structure SyncReplicationState where
  LastProcessedMessageId : Int
  LastProcessedMessageTime : Option Int
  deriving DecidableEq, Repr

/-- Wire message `WorkflowReplicationMessages` carried by an inbound response,
with raw replication tasks of type `ρ`. -/
structure WorkflowReplicationMessages (ρ : Type) where
  ReplicationTasks : List ρ
  LastTaskId : Int
  LastTaskTime : Option Int

/-- One element of the channel returned by `stream.Recv()`: the Go struct
`StreamResp` with its `Resp` and `Err` fields. The response carries its
`Messages`, as the inbound frame does; `Resp` is not read when `Err` is set. -/
structure StreamResp (ρ : Type) where
  Resp : WorkflowReplicationMessages ρ
  Err : Option GoError

/-- Go helper `timestamp.TimeValue`: the zero time for a nil pointer. -/
def TimeValue : Option Int → Int
  | some t => t
  | none => 0

/-- Go helper `timestamp.TimePtr`. -/
def TimePtr (t : Int) : Option Int := some t

/-- Effects of the receiver on its collaborators, with executable tasks of type `κ`. -/
inductive Event (κ : Type) where
  | log (msg : String)
  | goSendEventLoop
  | goRecvEventLoop
  | shutdown
  | close (s : Nat)
  | cancel
  | recv (s : Nat)
  | trackTasks (high : WatermarkInfo) (tasks : List κ)
  | submit (task : κ)
  | send (s : Nat) (req : SyncReplicationState)
  | newStream (old fresh : Nat) (oldCreation freshCreation : Int)

/-- True on `shutdownChan.Shutdown()` events. -/
def Event.isShutdown {κ : Type} : Event κ → Bool
  | .shutdown => true
  | _ => false

/-- True on `stream.Close()` events. -/
def Event.isClose {κ : Type} : Event κ → Bool
  | .close _ => true
  | _ => false

/-- True on `taskTracker.Cancel()` events. -/
def Event.isCancel {κ : Type} : Event κ → Bool
  | .cancel => true
  | _ => false

/-- The Go interface `ExecutableTaskTracker` as used by the receiver: the three
methods the receiver calls, over a tracker state `τ`. -/
structure ExecutableTaskTracker (τ κ : Type) where
  TrackTasks : WatermarkInfo → List κ → τ → τ
  LowWatermark : τ → Option WatermarkInfo × τ
  Cancel : τ → τ

/-- The part of `ProcessToolBox` the receiver reads: the task converter and the
two configured durations. -/
structure ProcessToolBox (ρ κ : Type) where
  ConvertTasks : String → List ρ → List κ
  ReplicationStreamSyncStatusDuration : Int
  ReplicationStreamMinReconnectDuration : Int

/-- Go struct `StreamReceiver`. The fields `nextStream` and `trace` are
instrumentation: the allocator behind `newStream` and the effect log. -/
structure StreamReceiver (τ ρ κ : Type) where
  toolBox : ProcessToolBox ρ κ
  status : DaemonStatus
  sourceShardKey : ClusterShardKey
  targetShardKey : ClusterShardKey
  taskTracker : τ
  shutdownChan : Bool
  streamCreationTime : Int
  stream : Nat
  nextStream : Nat
  trace : List (Event κ)

section Receiver

variable {τ ρ κ : Type}

/-- Append one effect to the log. -/
def emit (e : Event κ) (r : StreamReceiver τ ρ κ) : StreamReceiver τ ρ κ :=
  { r with trace := r.trace ++ [e] }

/-- Go function `NewStreamReceiver`; `tracker` is the result of
`NewExecutableTaskTracker` and `now` the value of `time.Now().UTC()`. -/
def NewStreamReceiver (processToolBox : ProcessToolBox ρ κ)
    (sourceShardKey targetShardKey : ClusterShardKey) (tracker : τ) (now : Int) :
    StreamReceiver τ ρ κ :=
  { toolBox := processToolBox
    status := .Initialized
    sourceShardKey := sourceShardKey
    targetShardKey := targetShardKey
    taskTracker := tracker
    shutdownChan := false
    streamCreationTime := now
    stream := 0
    nextStream := 1
    trace := [] }

/-- Statement `go r.sendEventLoop()` of `Start`. -/
def startGoSend (r : StreamReceiver τ ρ κ) : StreamReceiver τ ρ κ :=
  emit .goSendEventLoop r

/-- Statement `go r.recvEventLoop()` of `Start`. -/
def startGoRecv (r : StreamReceiver τ ρ κ) : StreamReceiver τ ρ κ :=
  emit .goRecvEventLoop r

/-- Statement `r.Logger.Info("StreamReceiver started.")` of `Start`. -/
def startLog (r : StreamReceiver τ ρ κ) : StreamReceiver τ ρ κ :=
  emit (.log "StreamReceiver started.") r

/-- Go method `StreamReceiver.Start`, run without interruption. -/
def Start (r : StreamReceiver τ ρ κ) : StreamReceiver τ ρ κ :=
  if r.status = .Initialized then
    startLog (startGoRecv (startGoSend { r with status := .Started }))
  else r

/-- Statement `r.shutdownChan.Shutdown()` of `Stop`. -/
def stopShutdown (r : StreamReceiver τ ρ κ) : StreamReceiver τ ρ κ :=
  emit .shutdown { r with shutdownChan := true }

/-- Statement `r.stream.Close()` of `Stop`. -/
def stopClose (r : StreamReceiver τ ρ κ) : StreamReceiver τ ρ κ :=
  emit (.close r.stream) r

/-- Statement `r.taskTracker.Cancel()` of `Stop`. -/
def stopCancel (T : ExecutableTaskTracker τ κ) (r : StreamReceiver τ ρ κ) :
    StreamReceiver τ ρ κ :=
  emit .cancel { r with taskTracker := T.Cancel r.taskTracker }

/-- Statement `r.Logger.Info("StreamReceiver shutting down.")` of `Stop`. -/
def stopLog (r : StreamReceiver τ ρ κ) : StreamReceiver τ ρ κ :=
  emit (.log "StreamReceiver shutting down.") r

/-- Go method `StreamReceiver.Stop`, run without interruption. -/
def Stop (T : ExecutableTaskTracker τ κ) (r : StreamReceiver τ ρ κ) : StreamReceiver τ ρ κ :=
  if r.status = .Started then
    stopLog (stopCancel T (stopClose (stopShutdown { r with status := .Stopped })))
  else r

/-- Go method `StreamReceiver.IsValid`. -/
def IsValid (r : StreamReceiver τ ρ κ) : Bool :=
  decide (r.status = .Started)

/-- A lifecycle call made by the owner of the receiver. -/
inductive Call where
  | Start
  | Stop
  deriving DecidableEq, Repr

/-- Perform one lifecycle call. -/
def applyCall (T : ExecutableTaskTracker τ κ) (c : Call) (r : StreamReceiver τ ρ κ) :
    StreamReceiver τ ρ κ :=
  match c with
  | .Start => Start r
  | .Stop => Stop T r

/-- Perform a sequence of lifecycle calls, first call first. -/
def applyCalls (T : ExecutableTaskTracker τ κ) (cs : List Call) (r : StreamReceiver τ ρ κ) :
    StreamReceiver τ ρ κ :=
  cs.foldl (fun acc c => applyCall T c acc) r

/-- Loop `for _, task := range tasks` of `processMessages`: one
`TaskScheduler.Submit` per task, in slice order. -/
def submitAll (tasks : List κ) (r : StreamReceiver τ ρ κ) : StreamReceiver τ ρ κ :=
  tasks.foldl (fun acc task => emit (.submit task) acc) r

/-- Body of the `range` loop of `processMessages` for an element without
error: convert, track, submit. -/
def processResp (T : ExecutableTaskTracker τ κ) (resp : WorkflowReplicationMessages ρ)
    (r : StreamReceiver τ ρ κ) : StreamReceiver τ ρ κ :=
  let tasks := r.toolBox.ConvertTasks r.targetShardKey.ClusterName resp.ReplicationTasks
  let highWatermark := resp.LastTaskId
  let highWatermarkTime := TimeValue resp.LastTaskTime
  let info : WatermarkInfo := { Watermark := highWatermark, Timestamp := highWatermarkTime }
  submitAll tasks
    (emit (.trackTasks info tasks)
      { r with taskTracker := T.TrackTasks info tasks r.taskTracker })

/-- Branch `streamResp.Err != nil` of `processMessages`: log; the caller returns the error. -/
def processErr (r : StreamReceiver τ ρ κ) : StreamReceiver τ ρ κ :=
  emit (.log "StreamReceiver recv stream encountered unexpected err") r

/-- End of the `range` loop of `processMessages`: the channel was closed. -/
def processClosed (r : StreamReceiver τ ρ κ) : StreamReceiver τ ρ κ :=
  emit (.log "StreamReceiver encountered channel close") r

/-- Statement `stream.Recv()` of `processMessages` together with the error
branch right after it; `err` is the error `Recv` returned, if any. -/
def processRecv (stream : Nat) (err : Option GoError) (r : StreamReceiver τ ρ κ) :
    StreamReceiver τ ρ κ :=
  match err with
  | some _ => emit (.log "StreamReceiver unable to recv message, err") (emit (.recv stream) r)
  | none => emit (.recv stream) r

/-- Loop `for streamResp := range streamRespChen` of `processMessages` over the
elements the channel delivers; the result is the returned error. -/
def rangeLoop (T : ExecutableTaskTracker τ κ) :
    List (StreamResp ρ) → StreamReceiver τ ρ κ → Option GoError × StreamReceiver τ ρ κ
  | [], r => (none, processClosed r)
  | streamResp :: rest, r =>
    match streamResp.Err with
    | some err => (some err, processErr r)
    | none => rangeLoop T rest (processResp T streamResp.Resp r)

/-- Go method `StreamReceiver.processMessages`; `recv` is what `stream.Recv()`
returns: an error, or the elements its channel delivers until it is closed. -/
def processMessages (T : ExecutableTaskTracker τ κ) (stream : Nat)
    (recv : Except GoError (List (StreamResp ρ))) (r : StreamReceiver τ ρ κ) :
    Option GoError × StreamReceiver τ ρ κ :=
  match recv with
  | .error err => (some err, processRecv stream (some err) r)
  | .ok streamRespChen => rangeLoop T streamRespChen (processRecv stream none r)

/-- Go method `StreamReceiver.ackMessage`; `sendErr` is the error returned by
`stream.Send`, if any. -/
def ackMessage (T : ExecutableTaskTracker τ κ) (stream : Nat) (sendErr : Option GoError)
    (r : StreamReceiver τ ρ κ) : StreamReceiver τ ρ κ :=
  match T.LowWatermark r.taskTracker with
  | (none, tracker) => { r with taskTracker := tracker }
  | (some watermarkInfo, tracker) =>
    let sent := emit
      (.send stream
        { LastProcessedMessageId := watermarkInfo.Watermark
          LastProcessedMessageTime := TimePtr watermarkInfo.Timestamp })
      { r with taskTracker := tracker }
    match sendErr with
    | some _ => emit (.log "StreamReceiver unable to send message, err") sent
    | none => sent

/-- Locked block at the end of an iteration of `recvEventLoop`: record
`time.Now().UTC()` and install the stream returned by `newStream`. -/
def replaceStream (now : Int) (r : StreamReceiver τ ρ κ) : StreamReceiver τ ρ κ :=
  emit (.newStream r.stream r.nextStream r.streamCreationTime now)
    { r with streamCreationTime := now, stream := r.nextStream, nextStream := r.nextStream + 1 }

/-! ### Interleaved execution

The receiver is run by up to three goroutines: the caller of `Start`/`Stop`,
`recvEventLoop` and `sendEventLoop`. `System` holds the receiver, the wall
clock and one program counter per goroutine; `step` executes one statement of
one goroutine. An action that is not enabled in the current state leaves the
state unchanged. -/

/-- Position inside one execution of `Stop`: the statement to execute next. -/
inductive StopPc where
  | cas
  | shutdown
  | close
  | cancel
  | log
  | returned
  deriving DecidableEq, Repr

/-- Position inside one execution of `Start` after its compare-and-swap succeeded. -/
inductive StartPc where
  | goSend
  | goRecv
  | log
  deriving DecidableEq, Repr

/-- Execute the next statement of `Stop`. -/
def stopStep (T : ExecutableTaskTracker τ κ) (p : StopPc) (r : StreamReceiver τ ρ κ) :
    StopPc × StreamReceiver τ ρ κ :=
  match p with
  | .cas => if r.status = .Started then (.shutdown, { r with status := .Stopped }) else (.returned, r)
  | .shutdown => (.close, stopShutdown r)
  | .close => (.cancel, stopClose r)
  | .cancel => (.log, stopCancel T r)
  | .log => (.returned, stopLog r)
  | .returned => (.returned, r)

/-- Program counter of the goroutine that calls `Start` and `Stop`. -/
inductive SupPc where
  | idle
  | start (p : StartPc)
  | stop (p : StopPc)
  deriving DecidableEq, Repr

/-- Program counter of `recvEventLoop`. -/
inductive RecvPc where
  | notStarted
  | loopHead
  | lockSnapshot
  | callRecv (streamCreationTime : Int) (stream : Nat)
  | range (streamCreationTime : Int) (stream : Nat)
  | computeDelay (streamCreationTime : Int)
  | enterSelect (delay : Int)
  | select (deadline : Int)
  | replace
  | deferred (p : StopPc)
  | exited
  deriving DecidableEq, Repr

/-- Program counter of `sendEventLoop`. -/
inductive SendPc where
  | notStarted
  | select
  | lockSnapshot
  | ackMessage (stream : Nat)
  | deferred (p : StopPc)
  | exited
  deriving DecidableEq, Repr

/-- The case of a `select` statement that fires. -/
inductive Wake where
  | timer
  | shutdown
  deriving DecidableEq, Repr

/-- The receiver together with the clock and its goroutines. -/
structure System (τ ρ κ : Type) where
  r : StreamReceiver τ ρ κ
  clock : Int
  sup : SupPc
  recvLoop : RecvPc
  sendLoop : SendPc

/-- One scheduling decision together with the value the environment supplies. -/
inductive Action (τ ρ : Type) where
  | setClock (t : Int)
  | callStart
  | callStop
  | supStep
  | recvStep
  | recvCall (err : Option GoError)
  | recvElem (e : Option (StreamResp ρ))
  | recvWake (w : Wake)
  | sendWake (w : Wake)
  | sendStep (sendErr : Option GoError)
  | taskUpdate (f : τ → τ)

/-- The system right after `NewStreamReceiver`, no goroutine running yet. -/
def initSystem (processToolBox : ProcessToolBox ρ κ)
    (sourceShardKey targetShardKey : ClusterShardKey) (tracker : τ) (now : Int) :
    System τ ρ κ :=
  { r := NewStreamReceiver processToolBox sourceShardKey targetShardKey tracker now
    clock := now
    sup := .idle
    recvLoop := .notStarted
    sendLoop := .notStarted }

/-- Where the caller of `Stop` stands after a statement of `Stop`. -/
def supAfterStop : StopPc → SupPc
  | .returned => .idle
  | p => .stop p

/-- The caller goroutine enters `Start`: the compare-and-swap. -/
def callStart (s : System τ ρ κ) : System τ ρ κ :=
  match s.sup with
  | .idle =>
    if s.r.status = .Initialized then
      { s with r := { s.r with status := .Started }, sup := .start .goSend }
    else s
  | _ => s

/-- The caller goroutine enters `Stop`: the compare-and-swap. -/
def callStop (T : ExecutableTaskTracker τ κ) (s : System τ ρ κ) : System τ ρ κ :=
  match s.sup with
  | .idle => { s with r := (stopStep T .cas s.r).2, sup := supAfterStop (stopStep T .cas s.r).1 }
  | _ => s

/-- The caller goroutine executes the next statement of the call it is in. -/
def supStep (T : ExecutableTaskTracker τ κ) (s : System τ ρ κ) : System τ ρ κ :=
  match s.sup with
  | .idle => s
  | .start .goSend => { s with r := startGoSend s.r, sendLoop := .select, sup := .start .goRecv }
  | .start .goRecv => { s with r := startGoRecv s.r, recvLoop := .loopHead, sup := .start .log }
  | .start .log => { s with r := startLog s.r, sup := .idle }
  | .stop p => { s with r := (stopStep T p s.r).2, sup := supAfterStop (stopStep T p s.r).1 }

/-- Where a loop goroutine stands after a statement of its deferred `Stop`. -/
def recvAfterStop : StopPc → RecvPc
  | .returned => .exited
  | p => .deferred p

/-- Where `sendEventLoop` stands after a statement of its deferred `Stop`. -/
def sendAfterStop : StopPc → SendPc
  | .returned => .exited
  | p => .deferred p

/-- Go method `StreamReceiver.recvEventLoop`: the statements that need no
value from the environment, by program counter. The call of `processMessages`
is `processMessagesRecv` and `processMessagesRange`, the return of the
`select` is `recvEventLoopSelect`. -/
def recvEventLoop (T : ExecutableTaskTracker τ κ) (s : System τ ρ κ) : System τ ρ κ :=
  match s.recvLoop with
  -- for !r.shutdownChan.IsShutdown()  (the deferred r.Stop() runs on exit)
  | .loopHead =>
    if s.r.shutdownChan then { s with recvLoop := .deferred .cas }
    else { s with recvLoop := .lockSnapshot }
  -- r.Lock(); streamCreationTime := r.streamCreationTime; stream := r.stream; r.Unlock()
  | .lockSnapshot => { s with recvLoop := .callRecv s.r.streamCreationTime s.r.stream }
  -- delay := streamCreationTime.Add(MinReconnectDuration).Sub(time.Now().UTC()); if delay > 0
  | .computeDelay streamCreationTime =>
    let delay := streamCreationTime + s.r.toolBox.ReplicationStreamMinReconnectDuration - s.clock
    if delay > 0 then { s with recvLoop := .enterSelect delay }
    else { s with recvLoop := .replace }
  -- select: time.After(delay) arms a timer that fires once delay has elapsed
  | .enterSelect delay => { s with recvLoop := .select (s.clock + delay) }
  -- r.Lock(); r.streamCreationTime = time.Now().UTC(); r.stream = newStream(...); r.Unlock()
  | .replace => { s with r := replaceStream s.clock s.r, recvLoop := .loopHead }
  -- defer r.Stop()
  | .deferred p =>
    { s with r := (stopStep T p s.r).2, recvLoop := recvAfterStop (stopStep T p s.r).1 }
  | _ => s

/-- Statement `stream.Recv()` inside `processMessages` as called by
`recvEventLoop`; `err` is the error it returns, if any. -/
def processMessagesRecv (err : Option GoError) (s : System τ ρ κ) : System τ ρ κ :=
  match s.recvLoop with
  | .callRecv streamCreationTime stream =>
    match err with
    | some e =>
      { s with r := processRecv stream (some e) s.r, recvLoop := .computeDelay streamCreationTime }
    | none => { s with r := processRecv stream none s.r, recvLoop := .range streamCreationTime stream }
  | _ => s

/-- One turn of the `range` loop inside `processMessages` as called by
`recvEventLoop`; `e` is the element received, or `none` when the channel is closed. -/
def processMessagesRange (T : ExecutableTaskTracker τ κ) (e : Option (StreamResp ρ)) (s : System τ ρ κ) :
    System τ ρ κ :=
  match s.recvLoop with
  | .range streamCreationTime stream =>
    match e with
    | none => { s with r := processClosed s.r, recvLoop := .computeDelay streamCreationTime }
    | some streamResp =>
      match streamResp.Err with
      | some _ => { s with r := processErr s.r, recvLoop := .computeDelay streamCreationTime }
      | none =>
        { s with r := processResp T streamResp.Resp s.r, recvLoop := .range streamCreationTime stream }
  | _ => s

/-- The `select` of `recvEventLoop` returns: through `time.After(delay)` once
the clock has reached the deadline, or through the shutdown channel once it
is signalled. -/
def recvEventLoopSelect (w : Wake) (s : System τ ρ κ) : System τ ρ κ :=
  match s.recvLoop with
  | .select deadline =>
    match w with
    | .timer => if deadline ≤ s.clock then { s with recvLoop := .replace } else s
    | .shutdown => if s.r.shutdownChan then { s with recvLoop := .replace } else s
  | _ => s

/-- The `select` of `sendEventLoop` returns: a tick of the ticker, or the
shutdown channel once it is signalled. -/
def sendEventLoopSelect (w : Wake) (s : System τ ρ κ) : System τ ρ κ :=
  match s.sendLoop with
  | .select =>
    match w with
    | .timer => { s with sendLoop := .lockSnapshot }
    | .shutdown => if s.r.shutdownChan then { s with sendLoop := .deferred .cas } else s
  | _ => s

/-- Go method `StreamReceiver.sendEventLoop`: the statements after a tick and
the deferred `Stop`; `sendErr` is the error `stream.Send` returns, if any. -/
def sendEventLoop (T : ExecutableTaskTracker τ κ) (sendErr : Option GoError) (s : System τ ρ κ) :
    System τ ρ κ :=
  match s.sendLoop with
  | .lockSnapshot => { s with sendLoop := .ackMessage s.r.stream }
  | .ackMessage stream => { s with r := ackMessage T stream sendErr s.r, sendLoop := .select }
  | .deferred p =>
    { s with r := (stopStep T p s.r).2, sendLoop := sendAfterStop (stopStep T p s.r).1 }
  | _ => s

/-- One step of the system. -/
def step (T : ExecutableTaskTracker τ κ) (a : Action τ ρ) (s : System τ ρ κ) : System τ ρ κ :=
  match a with
  | .setClock t => { s with clock := t }
  | .callStart => callStart s
  | .callStop => callStop T s
  | .supStep => supStep T s
  | .recvStep => recvEventLoop T s
  | .recvCall err => processMessagesRecv err s
  | .recvElem e => processMessagesRange T e s
  | .recvWake w => recvEventLoopSelect w s
  | .sendWake w => sendEventLoopSelect w s
  | .sendStep sendErr => sendEventLoop T sendErr s
  | .taskUpdate f => { s with r := { s.r with taskTracker := f s.r.taskTracker } }

/-- Run a schedule, first action first. -/
def run (T : ExecutableTaskTracker τ κ) (acts : List (Action τ ρ)) (s : System τ ρ κ) :
    System τ ρ κ :=
  acts.foldl (fun acc a => step T a acc) s

/-- Check that a condition holds of every action of a schedule, in the state
in which the action is taken. -/
def runAll (T : ExecutableTaskTracker τ κ) (ok : Action τ ρ → System τ ρ κ → Bool) :
    List (Action τ ρ) → System τ ρ κ → Bool
  | [], _ => true
  | a :: rest, s => ok a s && runAll T ok rest (step T a s)

/-- The clock never goes back: a change of the clock is to a later or equal instant. -/
def clockAdvances (a : Action τ ρ) (s : System τ ρ κ) : Bool :=
  match a with
  | .setClock t => decide (s.clock ≤ t)
  | _ => true

/-- The backoff `select` of `recvEventLoop` is not left through the shutdown case. -/
def noShutdownWake (a : Action τ ρ) (s : System τ ρ κ) : Bool :=
  match a, s.recvLoop with
  | .recvWake .shutdown, .select _ => false
  | _, _ => true

/-- The actions that execute a statement of `recvEventLoop`. -/
def Action.isRecv : Action τ ρ → Bool
  | .recvStep => true
  | .recvCall _ => true
  | .recvElem _ => true
  | .recvWake _ => true
  | _ => false

/-- Whether `recvEventLoop` is running its deferred `Stop`. -/
def RecvPc.isDeferred : RecvPc → Bool
  | .deferred _ => true
  | _ => false

/-- The program counters of `recvEventLoop` that lie inside an iteration:
after the loop condition was passed and before the stream was replaced. -/
def RecvPc.inIteration : RecvPc → Bool
  | .lockSnapshot => true
  | .callRecv _ _ => true
  | .range _ _ => true
  | .computeDelay _ => true
  | .enterSelect _ => true
  | .select _ => true
  | .replace => true
  | _ => false

/-- The streams on which `Close()` was called, in order. -/
def closedStreams : List (Event κ) → List Nat
  | [] => []
  | .close x :: rest => x :: closedStreams rest
  | _ :: rest => closedStreams rest

/-- The stream replacements in a trace, in order: the replaced stream, the
installed stream, the creation time of the replaced stream and the creation
time recorded for the installed one. -/
def newStreams : List (Event κ) → List (Nat × Nat × Int × Int)
  | [] => []
  | .newStream old fresh oldCreation freshCreation :: rest =>
    (old, fresh, oldCreation, freshCreation) :: newStreams rest
  | _ :: rest => newStreams rest

/-- The streams that were replaced by `recvEventLoop`, in order. -/
def replacedStreams (trace : List (Event κ)) : List Nat :=
  (newStreams trace).map (fun n => n.1)

/-- The part of a receiver that matters to the lifecycle and to reconnection. -/
structure View where
  status : DaemonStatus
  shutdownChan : Bool
  streamCreationTime : Int
  stream : Nat
  nextStream : Nat
  minReconnect : Int
  closed : List Nat
  installs : List (Nat × Nat × Int × Int)

/-- The lifecycle and reconnection view of a receiver. -/
def view (r : StreamReceiver τ ρ κ) : View :=
  { status := r.status
    shutdownChan := r.shutdownChan
    streamCreationTime := r.streamCreationTime
    stream := r.stream
    nextStream := r.nextStream
    minReconnect := r.toolBox.ReplicationStreamMinReconnectDuration
    closed := closedStreams r.trace
    installs := newStreams r.trace }

/-- Whether an execution of `Stop` has passed its compare-and-swap and has
not yet closed the stream: 1 if so, else 0. -/
def StopPc.closePending : StopPc → Nat
  | .shutdown => 1
  | .close => 1
  | _ => 0

/-- The `closePending` of the caller goroutine. -/
def SupPc.closePending : SupPc → Nat
  | .stop p => p.closePending
  | _ => 0

/-- The `closePending` of `recvEventLoop`. -/
def RecvPc.closePending : RecvPc → Nat
  | .deferred p => p.closePending
  | _ => 0

/-- The `closePending` of `sendEventLoop`. -/
def SendPc.closePending : SendPc → Nat
  | .deferred p => p.closePending
  | _ => 0

/-- The view of the receiver after the statement of `Stop` at `p`. -/
def StopPc.viewAfter (p : StopPc) (v : View) : View :=
  match p with
  | .cas => if v.status = .Started then { v with status := .Stopped } else v
  | .shutdown => { v with shutdownChan := true }
  | .close => { v with closed := v.closed ++ [v.stream] }
  | _ => v

/-- The position in `Stop` after the statement at `p`. -/
def StopPc.next (p : StopPc) (v : View) : StopPc :=
  match p with
  | .cas => if v.status = .Started then .shutdown else .returned
  | .shutdown => .close
  | .close => .cancel
  | .cancel => .log
  | _ => .returned

/-- Invariant on the view, with `pending` the number of `Close()` calls that
goroutines are committed to: `Close()` is called, or committed to, only once
the status is `Stopped`, and at most once; stream identifiers are handed out
in increasing order, the current one being the latest. -/
def closeInvV (v : View) (pending : Nat) : Prop :=
  (v.status ≠ .Stopped → v.closed.length + pending = 0) ∧ v.closed.length + pending ≤ 1 ∧
    v.stream < v.nextStream ∧
    (∀ x ∈ v.closed, x < v.nextStream) ∧
    (∀ n ∈ v.installs, n.1 < v.stream)

/-- Invariant of the interleaved execution: the loops are spawned by `Start`
only; they are not running while the status is `Initialized` nor before the
`go` statement that spawns them. -/
def spawnInv (s : System τ ρ κ) : Prop :=
  ((view s.r).status = .Initialized → s.sup = .idle ∧ s.sendLoop = .notStarted ∧
      s.recvLoop = .notStarted) ∧
    (s.sup = .start .goSend → s.sendLoop = .notStarted ∧ s.recvLoop = .notStarted) ∧
    (s.sup = .start .goRecv → s.recvLoop = .notStarted)

/-- Invariant of the interleaved execution, see `closeInvV`. -/
def closeInv (s : System τ ρ κ) : Prop :=
  closeInvV (view s.r)
    (s.sup.closePending + s.recvLoop.closePending + s.sendLoop.closePending)

/-- What `recvEventLoop` knows about the reconnect delay at each of its
program counters, when the minimal reconnect duration is `m`. -/
def RecvPc.delayInv (m : Int) (creation clock : Int) : RecvPc → Prop
  | .callRecv streamCreationTime _ => streamCreationTime = creation
  | .range streamCreationTime _ => streamCreationTime = creation
  | .computeDelay streamCreationTime => streamCreationTime = creation
  | .enterSelect delay => creation + m ≤ clock + delay
  | .select deadline => creation + m ≤ deadline
  | .replace => creation + m ≤ clock
  | _ => True

/-- Invariant behind the reconnect floor: every replacement so far respects
the minimal reconnect duration `m`, and the loop is on its way to respect it. -/
def reconnectInv (m : Int) (s : System τ ρ κ) : Prop :=
  (view s.r).minReconnect = m ∧
    (∀ n ∈ (view s.r).installs, n.2.2.1 + m ≤ n.2.2.2) ∧
    s.recvLoop.delayInv m (view s.r).streamCreationTime s.clock

/-- Invariant after `Stop` has closed stream `x` while `recvEventLoop` was
inside an iteration: no further `Close()` can happen, and either the loop is
still inside that iteration with `x` current, or `x` has been replaced. -/
def afterCloseInv (x : Nat) (s : System τ ρ κ) : Prop :=
  (view s.r).closed = [x] ∧ (view s.r).status = .Stopped ∧
    s.sup.closePending = 0 ∧ s.recvLoop.closePending = 0 ∧ s.sendLoop.closePending = 0 ∧
    x < (view s.r).nextStream ∧
    ((s.recvLoop.inIteration = true ∧ (view s.r).stream = x) ∨
      ((view s.r).stream ≠ x ∧ x ∈ (view s.r).installs.map (fun n => n.1)))

end Receiver

/-! ### Stream client provider (`grpc_stream_client.go`) -/

section Provider

variable {α μ σ : Type}

/-- Go struct `history.ClusterShardID`. -/
structure ClusterShardID where
  ClusterName : String
  ShardID : Int
  deriving DecidableEq, Repr

/-- A `context.Context`: its outgoing gRPC metadata, and `base` standing for
everything else it carries. -/
structure Context (μ : Type) where
  outgoingMD : Option μ
  base : Nat

/-- Library function `metadata.NewOutgoingContext`: the same context with the
outgoing metadata set to `md`. -/
def NewOutgoingContext (ctx : Context μ) (md : μ) : Context μ :=
  { ctx with outgoingMD := some md }

/-- The method of `client.Bean` the provider calls, with admin clients of type `α`. -/
structure ClientBean (α : Type) where
  GetRemoteAdminClient : String → Except GoError α

/-- The method of the admin client the provider calls; the result is the Go
pair of a stream client and an error. -/
structure AdminService (α μ σ : Type) where
  StreamWorkflowReplicationMessages : α → Context μ → Option σ × Option GoError

/-- Remote calls made by the provider. -/
inductive RpcCall (α μ : Type) where
  | GetRemoteAdminClient (clusterName : String)
  | StreamWorkflowReplicationMessages (client : α) (ctx : Context μ)

/-- Go struct `StreamBiDirectionStreamClientProvider`. -/
structure StreamBiDirectionStreamClientProvider (α : Type) where
  clientBean : ClientBean α

/-- Go function `NewStreamBiDirectionStreamClientProvider`. -/
def NewStreamBiDirectionStreamClientProvider (clientBean : ClientBean α) :
    StreamBiDirectionStreamClientProvider α :=
  { clientBean := clientBean }

/-- Go method `StreamBiDirectionStreamClientProvider.Get`. `EncodeClusterShardMD`
is `history.EncodeClusterShardMD` and `admin` the behaviour of admin clients;
the result comes with the remote calls made, in order. -/
def StreamBiDirectionStreamClientProvider.Get (p : StreamBiDirectionStreamClientProvider α)
    (EncodeClusterShardMD : ClusterShardID → ClusterShardID → μ) (admin : AdminService α μ σ)
    (ctx : Context μ) (sourceShardKey targetShardKey : ClusterShardKey) :
    (Option σ × Option GoError) × List (RpcCall α μ) :=
  match p.clientBean.GetRemoteAdminClient targetShardKey.ClusterName with
  | .error err => ((none, some err), [.GetRemoteAdminClient targetShardKey.ClusterName])
  | .ok adminClient =>
    let ctx1 := NewOutgoingContext ctx
      (EncodeClusterShardMD
        { ClusterName := sourceShardKey.ClusterName, ShardID := sourceShardKey.ShardID }
        { ClusterName := targetShardKey.ClusterName, ShardID := targetShardKey.ShardID })
    (admin.StreamWorkflowReplicationMessages adminClient ctx1,
      [.GetRemoteAdminClient targetShardKey.ClusterName,
       .StreamWorkflowReplicationMessages adminClient ctx1])

end Provider

/-! ### Executable task tracker

The tracker implementation is not part of the embedded sources; the
definitions below follow the specification of the tracker. Identifiers and
watermarks are integers. -/

/-- Modelled from the spec: the state of a task (`Task.State()`), the tracker's
task type is declared outside the embedded sources. -/
inductive TaskState where
  | pending
  | acked
  | cancelled
  deriving DecidableEq, Repr

/-- Modelled from the spec: a tracked task with `TaskID()`, `SourceTime()` and
`State()`; the task type is declared outside the embedded sources. -/
structure Task where
  taskId : Int
  sourceTime : Int
  state : TaskState
  deriving DecidableEq, Repr

/-- Modelled from the spec: the state of the executable task tracker (its
implementation is outside the embedded sources): the ordered sequence of
tracked tasks, the `ceiling` watermark and the terminal `cancelled` flag. -/
structure TrackerModel where
  tasks : List Task
  ceiling : Option WatermarkInfo
  cancelled : Bool
  deriving DecidableEq, Repr

/-- Modelled from the spec: `NewExecutableTaskTracker`, missing from the
embedded sources: no task tracked, no ceiling, not cancelled. -/
def NewExecutableTaskTracker : TrackerModel :=
  { tasks := [], ceiling := none, cancelled := false }

/-- Modelled from the spec: `ceiling := max(ceiling, high)` by the `watermark`
field, the update made by the missing `TrackTasks`. -/
def raiseCeiling (ceiling : Option WatermarkInfo) (high : WatermarkInfo) : Option WatermarkInfo :=
  match ceiling with
  | none => some high
  | some c => if c.Watermark < high.Watermark then some high else some c

/-- Modelled from the spec: `TrackTasks`, missing from the embedded sources:
a no-op once cancelled, otherwise appends the tasks in input order and raises
the ceiling. -/
def TrackerModel.TrackTasks (high : WatermarkInfo) (tasks : List Task) (t : TrackerModel) :
    TrackerModel :=
  if t.cancelled then t
  else { t with tasks := t.tasks ++ tasks, ceiling := raiseCeiling t.ceiling high }

/-- Modelled from the spec: the pruning done by the missing `LowWatermark`:
discard the leading tasks whose state is `acked`. -/
def pruneAcked : List Task → List Task
  | [] => []
  | task :: rest => if task.state = .acked then pruneAcked rest else task :: rest

/-- Modelled from the spec: `LowWatermark`, missing from the embedded sources:
`none` once cancelled; otherwise prune the leading acked tasks, then return
the first remaining task's id minus one with its source time, or the ceiling
when nothing remains. -/
def TrackerModel.LowWatermark (t : TrackerModel) : Option WatermarkInfo × TrackerModel :=
  if t.cancelled then (none, t)
  else
    match pruneAcked t.tasks with
    | [] => (t.ceiling, { t with tasks := [] })
    | firstPending :: rest =>
      (some { Watermark := firstPending.taskId - 1, Timestamp := firstPending.sourceTime },
        { t with tasks := firstPending :: rest })

/-- Modelled from the spec: `Cancel`, missing from the embedded sources: sets
`cancelled` and empties the sequence (after cancelling the tracked tasks). -/
def TrackerModel.Cancel (t : TrackerModel) : TrackerModel :=
  { t with tasks := [], cancelled := true }

/-- Modelled from the spec: the externally driven transition of the task with
the given id from `pending` to `acked`, as observed by the tracker whose
implementation is missing. -/
def TrackerModel.markAcked (taskId : Int) (t : TrackerModel) : TrackerModel :=
  { t with
    tasks := t.tasks.map
      (fun task =>
        if task.taskId = taskId ∧ task.state = .pending then { task with state := .acked }
        else task) }

/-- Modelled from the spec: the tracker, whose implementation is missing from
the embedded sources, packaged as the interface the receiver calls. -/
def specTracker : ExecutableTaskTracker TrackerModel Task :=
  { TrackTasks := TrackerModel.TrackTasks
    LowWatermark := TrackerModel.LowWatermark
    Cancel := TrackerModel.Cancel }

/-- An operation on the tracker: calls of its methods and task acknowledgements. -/
inductive TrackerOp where
  | track (high : WatermarkInfo) (tasks : List Task)
  | ack (taskId : Int)
  | lowWatermark
  | cancel
  deriving DecidableEq, Repr

/-- Perform one tracker operation; the result of a `LowWatermark` call is returned. -/
def trackerStep (op : TrackerOp) (t : TrackerModel) : Option WatermarkInfo × TrackerModel :=
  match op with
  | .track high tasks => (none, t.TrackTasks high tasks)
  | .ack taskId => (none, t.markAcked taskId)
  | .lowWatermark => t.LowWatermark
  | .cancel => (none, t.Cancel)

/-- The `watermark` fields of the successive non-`none` results of
`LowWatermark` along a sequence of operations. -/
def lowWatermarks : List TrackerOp → TrackerModel → List Int
  | [], _ => []
  | op :: rest, t =>
    match op, (trackerStep op t).1 with
    | .lowWatermark, some info => info.Watermark :: lowWatermarks rest (trackerStep op t).2
    | _, _ => lowWatermarks rest (trackerStep op t).2

/-- Every task handed to a `TrackTasks` call is `pending`: the only state
transitions are the acknowledgements in the sequence. -/
def tracksPending : List TrackerOp → Bool
  | [] => true
  | .track _ tasks :: rest => tasks.all (fun task => decide (task.state = .pending)) && tracksPending rest
  | _ :: rest => tracksPending rest

/-- The precondition on task ids: in every `TrackTasks` call the ids are
ascending and greater than every id in `seen`, the ids tracked before. -/
def idsAscend : List TrackerOp → List Int → Bool
  | [], _ => true
  | .track _ tasks :: rest, seen =>
    decide ((tasks.map Task.taskId).Pairwise (· < ·)) &&
      tasks.all (fun task => seen.all (fun old => decide (old < task.taskId))) &&
      idsAscend rest (seen ++ tasks.map Task.taskId)
  | _ :: rest, seen => idsAscend rest seen

/-- The greatest high watermark after a `TrackTasks` call with high watermark
`high`, when `ceiling` was the greatest one before. -/
def nextCeiling (ceiling : Option Int) (high : Int) : Option Int :=
  match ceiling with
  | none => some high
  | some c => some (max c high)

/-- Every task id of a `TrackTasks` call is greater than `ceiling`, if there is one. -/
def aboveCeiling (ceiling : Option Int) (tasks : List Task) : Bool :=
  match ceiling with
  | none => true
  | some c => tasks.all (fun task => decide (c < task.taskId))

/-- The precondition on high watermarks: in every `TrackTasks` call each task
id is at most the high watermark of the call and greater than `ceiling`, the
greatest high watermark of the calls before. -/
def watermarksBound : List TrackerOp → Option Int → Bool
  | [], _ => true
  | .track high tasks :: rest, ceiling =>
    tasks.all (fun task => decide (task.taskId ≤ high.Watermark)) &&
      aboveCeiling ceiling tasks &&
      watermarksBound rest (nextCeiling ceiling high.Watermark)
  | _ :: rest, ceiling => watermarksBound rest ceiling

/-- An operation of a receiver that runs on the modelled tracker: an
error-free inbound element handled by `processMessages`, a task
acknowledgement, a call of `ackMessage`, a reconnect. -/
inductive ReceiverOp (ρ : Type) where
  | frame (resp : WorkflowReplicationMessages ρ)
  | ack (taskId : Int)
  | ackMessage (sendErr : Option GoError)
  | reconnect (now : Int)

/-- Perform one receiver operation on the modelled tracker. -/
def receiverStep {ρ : Type} (op : ReceiverOp ρ) (r : StreamReceiver TrackerModel ρ Task) :
    StreamReceiver TrackerModel ρ Task :=
  match op with
  | .frame resp => processResp specTracker resp r
  | .ack taskId => { r with taskTracker := r.taskTracker.markAcked taskId }
  | .ackMessage sendErr => ackMessage specTracker r.stream sendErr r
  | .reconnect now => replaceStream now r

/-- Perform a sequence of receiver operations, first operation first. -/
def receiverRun {ρ : Type} (ops : List (ReceiverOp ρ)) (r : StreamReceiver TrackerModel ρ Task) :
    StreamReceiver TrackerModel ρ Task :=
  ops.foldl (fun acc op => receiverStep op acc) r

/-- The tracker operation a receiver operation amounts to, for a receiver with
the given tool box and target shard key. -/
def toTrackerOp {ρ : Type} (toolBox : ProcessToolBox ρ Task) (targetShardKey : ClusterShardKey) :
    ReceiverOp ρ → List TrackerOp
  | .frame resp =>
    [.track { Watermark := resp.LastTaskId, Timestamp := TimeValue resp.LastTaskTime }
      (toolBox.ConvertTasks targetShardKey.ClusterName resp.ReplicationTasks)]
  | .ack taskId => [.ack taskId]
  | .ackMessage _ => [.lowWatermark]
  | .reconnect _ => []

/-- The `lastProcessedMessageId` values of the `Send` calls in a trace, in order. -/
def sentIds {κ : Type} : List (Event κ) → List Int
  | [] => []
  | .send _ req :: rest => req.LastProcessedMessageId :: sentIds rest
  | _ :: rest => sentIds rest

/-- The `TrackTasks` calls in a trace, in order. -/
def trackCalls {κ : Type} : List (Event κ) → List (WatermarkInfo × List κ)
  | [] => []
  | .trackTasks high tasks :: rest => (high, tasks) :: trackCalls rest
  | _ :: rest => trackCalls rest

/-- The tasks handed to `TaskScheduler.Submit` in a trace, in order. -/
def submitted {κ : Type} : List (Event κ) → List κ
  | [] => []
  | .submit task :: rest => task :: submitted rest
  | _ :: rest => submitted rest

/-- The `Send` calls in a trace, in order. -/
def sendCalls {κ : Type} : List (Event κ) → List (Nat × SyncReplicationState)
  | [] => []
  | .send s req :: rest => (s, req) :: sendCalls rest
  | _ :: rest => sendCalls rest

/-- The calls on the tracker and the scheduler in a trace, in order, the
other events dropped. -/
def workEvents {κ : Type} : List (Event κ) → List (Event κ)
  | [] => []
  | .trackTasks high tasks :: rest => .trackTasks high tasks :: workEvents rest
  | .submit task :: rest => .submit task :: workEvents rest
  | _ :: rest => workEvents rest

/-- The calls `processMessages` is to make for one converted response: one
`TrackTasks` with the response's watermark, then one `Submit` per task. -/
def expectedWork {ρ κ : Type} (convert : List ρ → List κ)
    (resp : WorkflowReplicationMessages ρ) : List (Event κ) :=
  .trackTasks { Watermark := resp.LastTaskId, Timestamp := TimeValue resp.LastTaskTime }
      (convert resp.ReplicationTasks) ::
    (convert resp.ReplicationTasks).map Event.submit

/-- The ids of the tasks a tracker holds, in order. -/
def TrackerModel.ids (t : TrackerModel) : List Int :=
  t.tasks.map Task.taskId

/-- The invariant of a tracker that is not cancelled, relative to `ceiling`,
the greatest high watermark handed to it, and `last`, the latest non-`none`
low watermark it returned: tracked ids ascend, lie at or below the ceiling and
above `last`, and `last` is at most the ceiling. -/
def trackerInv (t : TrackerModel) (ceiling last : Option Int) : Prop :=
  t.ids.Pairwise (· < ·) ∧
    t.ceiling.map WatermarkInfo.Watermark = ceiling ∧
    (∀ i ∈ t.ids, ∃ c, ceiling = some c ∧ i ≤ c) ∧
    (∀ w, last = some w → (∀ i ∈ t.ids, w ≤ i - 1) ∧ ∃ c, ceiling = some c ∧ w ≤ c)

/-- A sequence of tracker operations that meets the precondition on task ids
but not the one on high watermarks. -/
def ceilingAboveLaterTask : List TrackerOp :=
  [ .track { Watermark := 100, Timestamp := 0 } [{ taskId := 5, sourceTime := 0, state := .pending }],
    .ack 5,
    .lowWatermark,
    .track { Watermark := 101, Timestamp := 0 } [{ taskId := 50, sourceTime := 0, state := .pending }],
    .lowWatermark ]

/-! ### Concrete scenarios -/

/-- A tool box for the scenarios: raw tasks are already executable tasks, the
sync period is 1 and the minimal reconnect duration is 10. -/
def scenarioToolBox : ProcessToolBox Task Task :=
  { ConvertTasks := fun _ raw => raw
    ReplicationStreamSyncStatusDuration := 1
    ReplicationStreamMinReconnectDuration := 10 }

/-- The system of the scenarios: a receiver from cluster `a`, shard 1, to
cluster `b`, shard 2, created at instant 0 on a new tracker. -/
def scenarioSystem : System TrackerModel Task Task :=
  initSystem scenarioToolBox (NewClusterShardKey "a" 1) (NewClusterShardKey "b" 2)
    NewExecutableTaskTracker 0

/-- The caller runs `Start` to completion. -/
def startCompletely : List (Action TrackerModel Task) :=
  [.callStart, .supStep, .supStep, .supStep]

/-- A schedule: `Start`; `recvEventLoop` enters its first iteration, `Recv`
fails, the clock reads 20, the stream is replaced at once; then `Stop` runs
to completion and `recvEventLoop` exits. -/
def reconnectThenStop : List (Action TrackerModel Task) :=
  startCompletely ++
    [.recvStep, .recvStep, .recvCall (some { msg := "unavailable" }), .setClock 20,
     .recvStep, .recvStep,
     .callStop, .supStep, .supStep, .supStep, .supStep,
     .recvStep, .recvStep]

/-- A schedule: `Start`; `recvEventLoop` enters its first iteration, `Recv`
fails at instant 0 and the loop waits in its backoff `select`; `Stop` is
called and signals shutdown; the loop wakes up, replaces the stream and
exits; only then `Stop` goes on to close the stream, cancel the tracker and
log. -/
def stopDuringBackoff : List (Action TrackerModel Task) :=
  startCompletely ++
    [.recvStep, .recvStep, .recvCall (some { msg := "unavailable" }),
     .recvStep, .recvStep,
     .callStop, .supStep,
     .recvWake .shutdown, .recvStep, .recvStep, .recvStep,
     .supStep, .supStep, .supStep]

/-- A schedule: `Start`; `recvEventLoop` enters its first iteration and is
about to call `Recv`; `Stop` is called, signals shutdown and is about to
close the stream. -/
def stopInsideIteration : List (Action TrackerModel Task) :=
  startCompletely ++ [.recvStep, .recvStep, .callStop, .supStep]

/-- A schedule that continues `stopInsideIteration` after the `Close()`: `Stop`
finishes; `Recv` fails, the loop enters its backoff `select`, wakes up through
the shutdown channel, replaces the stream and exits. -/
def finishAfterClose : List (Action TrackerModel Task) :=
  [.supStep, .supStep, .recvCall (some { msg := "closed" }), .recvStep, .recvStep,
   .recvWake .shutdown, .recvStep, .recvStep, .recvStep]

/-- A schedule with a non-decreasing clock and no shutdown: `Start`; in its
first iteration `Recv` fails at instant 3, the loop waits until the clock
reads 12 and replaces the stream; in its second iteration the channel is
closed at instant 30 and the loop replaces the stream at once. -/
def reconnectTwice : List (Action TrackerModel Task) :=
  startCompletely ++
    [.recvStep, .recvStep, .setClock 3, .recvCall (some { msg := "unavailable" }),
     .recvStep, .recvStep, .setClock 12, .recvWake .timer, .recvStep,
     .recvStep, .recvStep, .recvCall none, .setClock 30, .recvElem none,
     .recvStep, .recvStep]

/-- A pending task of the scenarios, with source time 0. -/
def pendingTask (taskId : Int) : Task :=
  { taskId := taskId, sourceTime := 0, state := .pending }

/-- Two inbound elements without error: tasks 10, 11, 12 with watermark 12 at
instant 7, then task 13 with watermark 13 and no time. -/
def scenarioFrames : List (StreamResp Task) :=
  [ { Resp := { ReplicationTasks := [pendingTask 10, pendingTask 11, pendingTask 12]
                LastTaskId := 12
                LastTaskTime := some 7 }
      Err := none },
    { Resp := { ReplicationTasks := [pendingTask 13], LastTaskId := 13, LastTaskTime := none }
      Err := none } ]

/-- Operations of a receiver: tasks 5, 6, 7 arrive with watermark 7 and are
acknowledged one by one, with an `ackMessage` after each acknowledgement; a
reconnect; tasks 10, 11, 12 arrive with watermark 12; a last `ackMessage`. -/
def scenarioReceiverOps : List (ReceiverOp Task) :=
  [ .frame { ReplicationTasks := [pendingTask 5, pendingTask 6, pendingTask 7]
             LastTaskId := 7
             LastTaskTime := some 100 },
    .ack 5, .ackMessage none,
    .ack 6, .ackMessage (some { msg := "closed" }),
    .ack 7, .ackMessage none,
    .reconnect 50,
    .frame { ReplicationTasks := [pendingTask 10, pendingTask 11, pendingTask 12]
             LastTaskId := 12
             LastTaskTime := none },
    .ackMessage none ]

/-- The tracker operations `scenarioReceiverOps` amounts to. -/
def scenarioTrackerOps : List TrackerOp :=
  [ .track { Watermark := 7, Timestamp := 100 } [pendingTask 5, pendingTask 6, pendingTask 7],
    .ack 5, .lowWatermark,
    .ack 6, .lowWatermark,
    .ack 7, .lowWatermark,
    .track { Watermark := 12, Timestamp := 0 } [pendingTask 10, pendingTask 11, pendingTask 12],
    .lowWatermark ]

/-- A sequence of tracker operations that meets the precondition on task ids
although the high watermark of the call lies below the task id. -/
def ceilingBelowTask : List TrackerOp :=
  [ .track { Watermark := 3, Timestamp := 0 } [{ taskId := 5, sourceTime := 0, state := .pending }],
    .lowWatermark,
    .ack 5,
    .lowWatermark ]

/-- The actions by which `recvEventLoop` consumes the elements of the channel
inside `processMessages`: one per element up to the first one with an error,
or the observation that the channel is closed. -/
def rangeActions {τ ρ : Type} : List (StreamResp ρ) → List (Action τ ρ)
  | [] => [.recvElem none]
  | streamResp :: rest =>
    match streamResp.Err with
    | some _ => [.recvElem (some streamResp)]
    | none => .recvElem (some streamResp) :: rangeActions rest

/-- The actions by which `recvEventLoop` runs `processMessages` when
`stream.Recv()` returns `recv`. -/
def recvActions {τ ρ : Type} : Except GoError (List (StreamResp ρ)) → List (Action τ ρ)
  | .error err => [.recvCall (some err)]
  | .ok streamRespChen => .recvCall none :: rangeActions streamRespChen

/-- The receiver of the scenarios after `Start`. -/
def startedReceiver : StreamReceiver TrackerModel Task Task :=
  Start scenarioSystem.r

/-- The receiver of the scenarios after `scenarioFrames` went through
`processMessages`: the tasks 10 to 13 are tracked and pending. -/
def trackingReceiver : StreamReceiver TrackerModel Task Task :=
  (processMessages specTracker 0 (.ok scenarioFrames) scenarioSystem.r).2

/-- An element with an error. -/
def brokenElement : StreamResp Task :=
  { Resp := { ReplicationTasks := [pendingTask 99], LastTaskId := 99, LastTaskTime := none }
    Err := some { msg := "stream broken" } }

/-- A client bean that knows the single remote cluster `b`, with admin client 7. -/
def scenarioClientBean : ClientBean Nat :=
  { GetRemoteAdminClient := fun clusterName =>
      if clusterName = "b" then .ok 7 else .error { msg := "unknown cluster" } }

/-- Admin clients whose stream call succeeds and returns, as the stream
client, the client and the outgoing metadata it was called with. -/
def scenarioAdmin :
    AdminService Nat (ClusterShardID × ClusterShardID)
      (Nat × Option (ClusterShardID × ClusterShardID)) :=
  { StreamWorkflowReplicationMessages := fun client ctx => (some (client, ctx.outgoingMD), none) }

end Replication

/-! ## Theorems -/

namespace Replication

section Lifecycle

variable {τ ρ κ : Type}

theorem start_of_initialized (r : StreamReceiver τ ρ κ) (h : r.status = .Initialized) :
    (Start r).status = .Started := by
  simp [Start, h, startLog, startGoRecv, startGoSend, emit]

theorem start_of_not_initialized (r : StreamReceiver τ ρ κ) (h : r.status ≠ .Initialized) :
    Start r = r := by
  simp [Start, h]

theorem stop_of_started (T : ExecutableTaskTracker τ κ) (r : StreamReceiver τ ρ κ)
    (h : r.status = .Started) : (Stop T r).status = .Stopped := by
  simp [Stop, h, stopLog, stopCancel, stopClose, stopShutdown, emit]

theorem stop_of_not_started (T : ExecutableTaskTracker τ κ) (r : StreamReceiver τ ρ κ)
    (h : r.status ≠ .Started) : Stop T r = r := by
  simp [Stop, h]

theorem applyCalls_cons (T : ExecutableTaskTracker τ κ) (c : Call) (cs : List Call)
    (r : StreamReceiver τ ρ κ) : applyCalls T (c :: cs) r = applyCalls T cs (applyCall T c r) := by
  simp [applyCalls]

theorem stop_trace_of_started (T : ExecutableTaskTracker τ κ) (r : StreamReceiver τ ρ κ)
    (h : r.status = .Started) :
    (Stop T r).trace =
      r.trace ++ [.shutdown, .close r.stream, .cancel, .log "StreamReceiver shutting down."] := by
  simp [Stop, h, stopLog, stopCancel, stopClose, stopShutdown, emit]

theorem stopEffects_invariant (T : ExecutableTaskTracker τ κ) (cs : List Call) :
    ∀ r : StreamReceiver τ ρ κ,
      ((r.status ≠ .Stopped →
          r.trace.countP Event.isShutdown = 0 ∧ r.trace.countP Event.isClose = 0 ∧
            r.trace.countP Event.isCancel = 0) ∧
        r.trace.countP Event.isShutdown ≤ 1 ∧ r.trace.countP Event.isClose ≤ 1 ∧
          r.trace.countP Event.isCancel ≤ 1) →
      ((applyCalls T cs r).trace.countP Event.isShutdown ≤ 1 ∧
        (applyCalls T cs r).trace.countP Event.isClose ≤ 1 ∧
          (applyCalls T cs r).trace.countP Event.isCancel ≤ 1) := by
  induction cs with
  | nil => intro r h; exact h.2
  | cons c cs ih =>
    intro r h
    rw [applyCalls_cons]
    apply ih
    obtain ⟨h0, h1⟩ := h
    cases c with
    | Start =>
      by_cases hs : r.status = .Initialized
      · have hz := h0 (by simp [hs])
        simp [applyCall, Start, hs, startLog, startGoRecv, startGoSend, emit, List.countP_append,
          Event.isShutdown, Event.isClose, Event.isCancel, hz]
      · simp only [applyCall, start_of_not_initialized r hs]
        exact ⟨h0, h1⟩
    | Stop =>
      by_cases hs : r.status = .Started
      · have hz := h0 (by simp [hs])
        simp [applyCall, Stop, hs, stopLog, stopCancel, stopClose, stopShutdown, emit,
          List.countP_append, Event.isShutdown, Event.isClose, Event.isCancel, hz]
      · simp only [applyCall, stop_of_not_started T r hs]
        exact ⟨h0, h1⟩

/-- C1: along every sequence of `Start` and `Stop` calls on a receiver built by
`NewStreamReceiver` the status starts at `Initialized` and moves only
`Initialized → Started → Stopped`: `Start` changes the status only from
`Initialized`, to `Started`; `Stop` changes it only from `Started`, to
`Stopped`; every other call returns the receiver unchanged in all its fields;
and no call changes a receiver whose status is `Stopped`. -/
theorem status_lifecycle (T : ExecutableTaskTracker τ κ) (processToolBox : ProcessToolBox ρ κ)
    (sourceShardKey targetShardKey : ClusterShardKey) (tracker : τ) (now : Int)
    (cs : List Call) (c : Call) :
    (NewStreamReceiver processToolBox sourceShardKey targetShardKey tracker now).status
        = .Initialized ∧
      (let r := applyCalls T cs
          (NewStreamReceiver processToolBox sourceShardKey targetShardKey tracker now)
       (r.status = .Initialized → (Start r).status = .Started) ∧
       (r.status ≠ .Initialized → Start r = r) ∧
       (r.status = .Started → (Stop T r).status = .Stopped) ∧
       (r.status ≠ .Started → Stop T r = r) ∧
       (r.status = .Stopped → applyCall T c r = r) ∧
       ((applyCall T c r).status = r.status ∨
          (c = .Start ∧ r.status = .Initialized ∧ (applyCall T c r).status = .Started) ∨
          (c = .Stop ∧ r.status = .Started ∧ (applyCall T c r).status = .Stopped))) := by
  refine ⟨rfl, ?_⟩
  intro r
  refine ⟨start_of_initialized r, start_of_not_initialized r, stop_of_started T r,
    stop_of_not_started T r, ?_, ?_⟩
  · intro h
    cases c with
    | Start => exact start_of_not_initialized r (by simp [h])
    | Stop => exact stop_of_not_started T r (by simp [h])
  · cases c with
    | Start =>
      by_cases hs : r.status = .Initialized
      · exact Or.inr (Or.inl ⟨rfl, hs, start_of_initialized r hs⟩)
      · exact Or.inl (by simp only [applyCall, start_of_not_initialized r hs])
    | Stop =>
      by_cases hs : r.status = .Started
      · exact Or.inr (Or.inr ⟨rfl, hs, stop_of_started T r hs⟩)
      · exact Or.inl (by simp only [applyCall, stop_of_not_started T r hs])

/-- C2: on a receiver whose status is `Started`, `Stop` appends to the effect
log exactly: the shutdown signal, `Close()` of the stream held in the `stream`
field, `Cancel()` of the task tracker (and then its log line), in this order,
leaving the shutdown channel signalled and the tracker cancelled; on a
receiver whose status is not `Started` it does nothing at all. Over every
sequence of `Start`/`Stop` calls on a new receiver each of the three effects
occurs at most once. -/
theorem stop_effects (T : ExecutableTaskTracker τ κ) (r : StreamReceiver τ ρ κ)
    (processToolBox : ProcessToolBox ρ κ) (sourceShardKey targetShardKey : ClusterShardKey)
    (tracker : τ) (now : Int) (cs : List Call) :
    (r.status = .Started →
        (Stop T r).trace =
            r.trace ++ [.shutdown, .close r.stream, .cancel, .log "StreamReceiver shutting down."] ∧
          (Stop T r).shutdownChan = true ∧
          (Stop T r).taskTracker = T.Cancel r.taskTracker ∧
          (Stop T r).stream = r.stream) ∧
      (r.status ≠ .Started → Stop T r = r) ∧
      (let final := applyCalls T cs
          (NewStreamReceiver processToolBox sourceShardKey targetShardKey tracker now)
       final.trace.countP Event.isShutdown ≤ 1 ∧ final.trace.countP Event.isClose ≤ 1 ∧
         final.trace.countP Event.isCancel ≤ 1) := by
  refine ⟨?_, stop_of_not_started T r, ?_⟩
  · intro h
    refine ⟨stop_trace_of_started T r h, ?_, ?_, ?_⟩ <;>
      simp [Stop, h, stopLog, stopCancel, stopClose, stopShutdown, emit]
  · apply stopEffects_invariant T cs
    simp [NewStreamReceiver]

/-- C1, instance: on the receiver of the scenarios `Start` leads to `Started`,
a following `Stop` to `Stopped`, and further calls change nothing. -/
theorem status_lifecycle_witness :
    (Start scenarioSystem.r).status = .Started ∧
      (Stop specTracker (applyCalls specTracker [.Start] scenarioSystem.r)).status = .Stopped ∧
      Stop specTracker scenarioSystem.r = scenarioSystem.r ∧
      applyCall specTracker .Start (applyCalls specTracker [.Start, .Stop] scenarioSystem.r) =
        applyCalls specTracker [.Start, .Stop] scenarioSystem.r :=
  ⟨(status_lifecycle specTracker scenarioToolBox (NewClusterShardKey "a" 1)
      (NewClusterShardKey "b" 2) NewExecutableTaskTracker 0 [] .Start).2.1 rfl,
    (status_lifecycle specTracker scenarioToolBox (NewClusterShardKey "a" 1)
      (NewClusterShardKey "b" 2) NewExecutableTaskTracker 0 [.Start] .Start).2.2.2.1 rfl,
    (status_lifecycle specTracker scenarioToolBox (NewClusterShardKey "a" 1)
      (NewClusterShardKey "b" 2) NewExecutableTaskTracker 0 [] .Start).2.2.2.2.1 (by decide),
    (status_lifecycle specTracker scenarioToolBox (NewClusterShardKey "a" 1)
      (NewClusterShardKey "b" 2) NewExecutableTaskTracker 0 [.Start, .Stop] .Start).2.2.2.2.2.1
      rfl⟩

/-- C2, instance: `Stop` on the started receiver of the scenarios signals
shutdown, closes stream 0 and cancels the tracker, in this order; on the
receiver that was not started it does nothing. -/
theorem stop_effects_witness :
    (Stop specTracker startedReceiver).trace =
        startedReceiver.trace ++
          [.shutdown, .close 0, .cancel, .log "StreamReceiver shutting down."] ∧
      Stop specTracker scenarioSystem.r = scenarioSystem.r :=
  ⟨((stop_effects specTracker startedReceiver scenarioToolBox (NewClusterShardKey "a" 1)
      (NewClusterShardKey "b" 2) NewExecutableTaskTracker 0 []).1 rfl).1,
    (stop_effects specTracker scenarioSystem.r scenarioToolBox (NewClusterShardKey "a" 1)
      (NewClusterShardKey "b" 2) NewExecutableTaskTracker 0 []).2.1 (by decide)⟩

end Lifecycle

section Messages

variable {τ ρ κ : Type}

theorem workEvents_append (l₁ l₂ : List (Event κ)) :
    workEvents (l₁ ++ l₂) = workEvents l₁ ++ workEvents l₂ := by
  induction l₁ with
  | nil => rfl
  | cons e l ih => cases e <;> simp [workEvents, ih]

theorem submitted_append (l₁ l₂ : List (Event κ)) :
    submitted (l₁ ++ l₂) = submitted l₁ ++ submitted l₂ := by
  induction l₁ with
  | nil => rfl
  | cons e l ih => cases e <;> simp [submitted, ih]

theorem trackCalls_append (l₁ l₂ : List (Event κ)) :
    trackCalls (l₁ ++ l₂) = trackCalls l₁ ++ trackCalls l₂ := by
  induction l₁ with
  | nil => rfl
  | cons e l ih => cases e <;> simp [trackCalls, ih]

theorem sendCalls_append (l₁ l₂ : List (Event κ)) :
    sendCalls (l₁ ++ l₂) = sendCalls l₁ ++ sendCalls l₂ := by
  induction l₁ with
  | nil => rfl
  | cons e l ih => cases e <;> simp [sendCalls, ih]

theorem workEvents_map_submit (tasks : List κ) :
    workEvents (tasks.map Event.submit) = tasks.map Event.submit := by
  induction tasks with
  | nil => rfl
  | cons t ts ih => simp [workEvents, ih]

theorem submitted_map_submit (tasks : List κ) :
    submitted (tasks.map Event.submit) = tasks := by
  induction tasks with
  | nil => rfl
  | cons t ts ih => simp [submitted, ih]

theorem trackCalls_map_submit (tasks : List κ) :
    trackCalls (tasks.map Event.submit) = [] := by
  induction tasks with
  | nil => rfl
  | cons t ts ih => simp [trackCalls, ih]

theorem submitAll_eq (tasks : List κ) :
    ∀ r : StreamReceiver τ ρ κ,
      submitAll tasks r = { r with trace := r.trace ++ tasks.map Event.submit } := by
  induction tasks with
  | nil => intro r; simp [submitAll]
  | cons t ts ih =>
    intro r
    have h := ih (emit (.submit t) r)
    simp only [submitAll, List.foldl_cons] at h ⊢
    rw [h]
    simp [emit]

theorem processResp_trace (T : ExecutableTaskTracker τ κ) (resp : WorkflowReplicationMessages ρ)
    (r : StreamReceiver τ ρ κ) :
    (processResp T resp r).trace =
      r.trace ++ expectedWork (r.toolBox.ConvertTasks r.targetShardKey.ClusterName) resp := by
  simp [processResp, submitAll_eq, emit, expectedWork]

theorem processResp_toolBox (T : ExecutableTaskTracker τ κ) (resp : WorkflowReplicationMessages ρ)
    (r : StreamReceiver τ ρ κ) :
    (processResp T resp r).toolBox = r.toolBox ∧
      (processResp T resp r).targetShardKey = r.targetShardKey := by
  simp [processResp, submitAll_eq, emit]

theorem workEvents_expectedWork (convert : List ρ → List κ) (resp : WorkflowReplicationMessages ρ) :
    workEvents (expectedWork convert resp) = expectedWork convert resp := by
  simp [expectedWork, workEvents, workEvents_map_submit]

/-- The `range` loop over elements without error followed by `rest`. -/
theorem rangeLoop_errorFree (T : ExecutableTaskTracker τ κ) (pre : List (StreamResp ρ)) :
    ∀ (rest : List (StreamResp ρ)) (r : StreamReceiver τ ρ κ),
      (∀ e ∈ pre, e.Err = none) →
      ∃ r₁ : StreamReceiver τ ρ κ,
        rangeLoop T (pre ++ rest) r = rangeLoop T rest r₁ ∧
          r₁.toolBox = r.toolBox ∧ r₁.targetShardKey = r.targetShardKey ∧
          r₁.trace = r.trace ++
            (pre.map (fun e =>
              expectedWork (r.toolBox.ConvertTasks r.targetShardKey.ClusterName) e.Resp)).flatten := by
  induction pre with
  | nil => intro rest r _; exact ⟨r, by simp⟩
  | cons e pre ih =>
    intro rest r h
    have he : e.Err = none := h e (by simp)
    obtain ⟨r₁, h1, h2, h3, h4⟩ := ih rest (processResp T e.Resp r)
      (fun x hx => h x (by simp [hx]))
    refine ⟨r₁, ?_, ?_, ?_, ?_⟩
    · simp only [List.cons_append, rangeLoop, he]
      exact h1
    · rw [h2, (processResp_toolBox T e.Resp r).1]
    · rw [h3, (processResp_toolBox T e.Resp r).2]
    · rw [h4, processResp_trace, (processResp_toolBox T e.Resp r).1,
        (processResp_toolBox T e.Resp r).2]
      simp

theorem workEvents_flatten_expected (convert : List ρ → List κ) (pre : List (StreamResp ρ)) :
    workEvents (pre.map (fun e => expectedWork convert e.Resp)).flatten =
      (pre.map (fun e => expectedWork convert e.Resp)).flatten := by
  induction pre with
  | nil => rfl
  | cons e pre ih => simp [workEvents_append, workEvents_expectedWork, ih]

theorem submitted_flatten_expected (convert : List ρ → List κ) (pre : List (StreamResp ρ)) :
    submitted (pre.map (fun e => expectedWork convert e.Resp)).flatten =
      (pre.map (fun e => convert e.Resp.ReplicationTasks)).flatten := by
  induction pre with
  | nil => rfl
  | cons e pre ih =>
    have h1 : submitted (expectedWork convert e.Resp) = convert e.Resp.ReplicationTasks := by
      simp [expectedWork, submitted, submitted_map_submit]
    simp [submitted_append, ih, h1]

theorem trackCalls_flatten_expected (convert : List ρ → List κ) (pre : List (StreamResp ρ)) :
    trackCalls (pre.map (fun e => expectedWork convert e.Resp)).flatten =
      pre.map (fun e =>
        (({ Watermark := e.Resp.LastTaskId, Timestamp := TimeValue e.Resp.LastTaskTime } :
            WatermarkInfo),
          convert e.Resp.ReplicationTasks)) := by
  induction pre with
  | nil => rfl
  | cons e pre ih =>
    have h1 : trackCalls (expectedWork convert e.Resp) =
        [(({ Watermark := e.Resp.LastTaskId, Timestamp := TimeValue e.Resp.LastTaskTime } :
            WatermarkInfo), convert e.Resp.ReplicationTasks)] := by
      simp [expectedWork, trackCalls, trackCalls_map_submit]
    simp [trackCalls_append, ih, h1]

theorem processRecv_fields (stream : Nat) (err : Option GoError) (r : StreamReceiver τ ρ κ) :
    (processRecv stream err r).toolBox = r.toolBox ∧
      (processRecv stream err r).targetShardKey = r.targetShardKey ∧
      workEvents (processRecv stream err r).trace = workEvents r.trace ∧
      submitted (processRecv stream err r).trace = submitted r.trace ∧
      trackCalls (processRecv stream err r).trace = trackCalls r.trace := by
  cases err <;>
    simp [processRecv, emit, workEvents_append, workEvents, submitted_append, submitted,
      trackCalls_append, trackCalls]

theorem processMessages_errorFree (T : ExecutableTaskTracker τ κ) (stream : Nat)
    (elems : List (StreamResp ρ)) (r : StreamReceiver τ ρ κ)
    (h : ∀ e ∈ elems, e.Err = none) :
    (processMessages T stream (.ok elems) r).1 = none ∧
      (processMessages T stream (.ok elems) r).2.trace =
        (processRecv stream none r).trace ++
          (elems.map (fun e =>
            expectedWork (r.toolBox.ConvertTasks r.targetShardKey.ClusterName) e.Resp)).flatten ++
          [.log "StreamReceiver encountered channel close"] := by
  obtain ⟨f1, f2, _, _, _⟩ := processRecv_fields stream none r
  obtain ⟨r₁, h1, _, _, h4⟩ := rangeLoop_errorFree T elems [] (processRecv stream none r) h
  rw [f1, f2] at h4
  simp only [List.append_nil] at h1
  simp only [processMessages, h1, rangeLoop, processClosed, emit, h4]
  exact ⟨trivial, trivial⟩

/-- C3: when `stream.Recv()` delivers a finite sequence of elements without
error, `processMessages` returns nil and makes, on the tracker and the
scheduler, exactly these calls in this order: for each response in arrival
order, one `TrackTasks` with the watermark `{lastTaskId, lastTaskTime}` of the
response and its converted tasks, then one `Submit` per converted task in
slice order. So the submitted tasks are the concatenation, in arrival order,
of what `ConvertTasks` returns for each response, and `TrackTasks` is called
once per response, before any task of that response is submitted. -/
theorem processMessages_order (T : ExecutableTaskTracker τ κ) (stream : Nat)
    (elems : List (StreamResp ρ)) (r : StreamReceiver τ ρ κ)
    (h : ∀ e ∈ elems, e.Err = none) :
    (processMessages T stream (.ok elems) r).1 = none ∧
      workEvents (processMessages T stream (.ok elems) r).2.trace =
        workEvents r.trace ++
          (elems.map (fun e =>
            expectedWork (r.toolBox.ConvertTasks r.targetShardKey.ClusterName) e.Resp)).flatten ∧
      submitted (processMessages T stream (.ok elems) r).2.trace =
        submitted r.trace ++
          (elems.map (fun e =>
            r.toolBox.ConvertTasks r.targetShardKey.ClusterName e.Resp.ReplicationTasks)).flatten ∧
      trackCalls (processMessages T stream (.ok elems) r).2.trace =
        trackCalls r.trace ++
          elems.map (fun e =>
            (({ Watermark := e.Resp.LastTaskId, Timestamp := TimeValue e.Resp.LastTaskTime } :
                WatermarkInfo),
              r.toolBox.ConvertTasks r.targetShardKey.ClusterName e.Resp.ReplicationTasks)) := by
  obtain ⟨_, _, f3, f4, f5⟩ := processRecv_fields stream none r
  obtain ⟨h1, h2⟩ := processMessages_errorFree T stream elems r h
  rw [h2]
  refine ⟨h1, ?_, ?_, ?_⟩
  · simp [workEvents_append, workEvents_flatten_expected, f3, workEvents]
  · simp [submitted_append, submitted_flatten_expected, f4, submitted]
  · simp [trackCalls_append, trackCalls_flatten_expected, f5, trackCalls]

/-- C3, instance: on `scenarioFrames` the tasks 10, 11, 12, 13 are submitted in
this order, after one `TrackTasks` call per frame. -/
theorem processMessages_order_witness :
    (∀ e ∈ scenarioFrames, e.Err = none) ∧
      submitted (processMessages specTracker 0 (.ok scenarioFrames) scenarioSystem.r).2.trace =
        [pendingTask 10, pendingTask 11, pendingTask 12, pendingTask 13] ∧
      trackCalls (processMessages specTracker 0 (.ok scenarioFrames) scenarioSystem.r).2.trace =
        [({ Watermark := 12, Timestamp := 7 },
            [pendingTask 10, pendingTask 11, pendingTask 12]),
         ({ Watermark := 13, Timestamp := 0 }, [pendingTask 13])] :=
  ⟨by decide,
    (processMessages_order specTracker 0 scenarioFrames scenarioSystem.r (by decide)).2.2.1,
    (processMessages_order specTracker 0 scenarioFrames scenarioSystem.r (by decide)).2.2.2⟩

/-- C5: `processMessages` returns an error in exactly two cases. (1) When
`stream.Recv()` fails it returns that error, with no `TrackTasks` and no
`Submit` call. (2) At the first element whose `Err` is set it returns that
`Err`, after the `TrackTasks` and `Submit` calls of every earlier element and
none for that element or a later one. (3) When the channel closes after
elements without error it returns nil. -/
theorem processMessages_result (T : ExecutableTaskTracker τ κ) (stream : Nat)
    (r : StreamReceiver τ ρ κ) :
    (∀ err : GoError,
        (processMessages T stream (.error err) r).1 = some err ∧
          workEvents (processMessages T stream (.error err) r).2.trace = workEvents r.trace) ∧
      (∀ (pre post : List (StreamResp ρ)) (e : StreamResp ρ) (err : GoError),
        (∀ x ∈ pre, x.Err = none) → e.Err = some err →
          (processMessages T stream (.ok (pre ++ e :: post)) r).1 = some err ∧
            workEvents (processMessages T stream (.ok (pre ++ e :: post)) r).2.trace =
              workEvents r.trace ++
                (pre.map (fun x =>
                  expectedWork (r.toolBox.ConvertTasks r.targetShardKey.ClusterName)
                    x.Resp)).flatten) ∧
      (∀ elems : List (StreamResp ρ), (∀ x ∈ elems, x.Err = none) →
          (processMessages T stream (.ok elems) r).1 = none) := by
  refine ⟨?_, ?_, ?_⟩
  · intro err
    obtain ⟨_, _, f3, _, _⟩ := processRecv_fields stream (some err) r
    exact ⟨rfl, f3⟩
  · intro pre post e err hpre he
    obtain ⟨f1, f2, f3, _, _⟩ := processRecv_fields stream none r
    obtain ⟨r₁, h1, _, _, h4⟩ :=
      rangeLoop_errorFree T pre (e :: post) (processRecv stream none r) hpre
    rw [f1, f2] at h4
    simp only [processMessages, h1, rangeLoop, he, processErr, emit, h4]
    refine ⟨trivial, ?_⟩
    simp [workEvents_append, workEvents_flatten_expected, f3, workEvents]
  · intro elems h
    exact (processMessages_errorFree T stream elems r h).1

/-- C4: `ackMessage` sends nothing when `LowWatermark()` returns none;
otherwise it calls `Send` exactly once, on the stream it was given, with a
`SyncReplicationState` whose `lastProcessedMessageId` is the returned
watermark and whose `lastProcessedMessageTime` is the returned timestamp.
Whether or not `Send` fails, `ackMessage` returns, and the receiver's status
and `stream` field are unchanged. -/
theorem ackMessage_sends (T : ExecutableTaskTracker τ κ) (stream : Nat)
    (sendErr : Option GoError) (r : StreamReceiver τ ρ κ) :
    ((T.LowWatermark r.taskTracker).1 = none →
        (ackMessage T stream sendErr r).trace = r.trace) ∧
      (∀ info : WatermarkInfo, (T.LowWatermark r.taskTracker).1 = some info →
        sendCalls (ackMessage T stream sendErr r).trace =
          sendCalls r.trace ++
            [(stream,
              { LastProcessedMessageId := info.Watermark
                LastProcessedMessageTime := some info.Timestamp })]) ∧
      (ackMessage T stream sendErr r).status = r.status ∧
      (ackMessage T stream sendErr r).stream = r.stream ∧
      (ackMessage T stream sendErr r).taskTracker = (T.LowWatermark r.taskTracker).2 := by
  unfold ackMessage
  rcases hlw : T.LowWatermark r.taskTracker with ⟨w, t⟩
  cases w with
  | none => simp
  | some info =>
    cases sendErr <;> simp [emit, sendCalls_append, sendCalls, TimePtr]

/-- C5, instance: a failing `Recv` returns its error; an element with an error
after `scenarioFrames` returns that error after the tasks 10 to 13 were
submitted, and task 99 of the broken element is not. -/
theorem processMessages_result_witness :
    (processMessages specTracker 0 (.error { msg := "unavailable" }) scenarioSystem.r).1 =
        some { msg := "unavailable" } ∧
      (processMessages specTracker 0 (.ok (scenarioFrames ++ brokenElement :: scenarioFrames))
          scenarioSystem.r).1 = some { msg := "stream broken" } ∧
      submitted (processMessages specTracker 0
          (.ok (scenarioFrames ++ brokenElement :: scenarioFrames)) scenarioSystem.r).2.trace =
        [pendingTask 10, pendingTask 11, pendingTask 12, pendingTask 13] ∧
      (processMessages specTracker 0 (.ok scenarioFrames) scenarioSystem.r).1 = none :=
  ⟨((processMessages_result specTracker 0 scenarioSystem.r).1 { msg := "unavailable" }).1,
    ((processMessages_result specTracker 0 scenarioSystem.r).2.1 scenarioFrames scenarioFrames
      brokenElement { msg := "stream broken" } (by decide) rfl).1,
    by decide,
    (processMessages_result specTracker 0 scenarioSystem.r).2.2 scenarioFrames (by decide)⟩

/-- C4, instance: on a new tracker `ackMessage` sends nothing; once the tasks
10 to 13 are tracked it sends watermark 9 with time 0 on the stream it was
given, also when `Send` fails. -/
theorem ackMessage_sends_witness :
    (ackMessage specTracker 0 none scenarioSystem.r).trace = scenarioSystem.r.trace ∧
      sendCalls (ackMessage specTracker 3 (some { msg := "closed" }) trackingReceiver).trace =
        [(3, { LastProcessedMessageId := 9, LastProcessedMessageTime := some 0 })] ∧
      (ackMessage specTracker 3 (some { msg := "closed" }) trackingReceiver).status =
        trackingReceiver.status :=
  ⟨(ackMessage_sends specTracker 0 none scenarioSystem.r).1 rfl,
    (ackMessage_sends specTracker 3 (some { msg := "closed" }) trackingReceiver).2.1
      { Watermark := 9, Timestamp := 0 } (by decide),
    (ackMessage_sends specTracker 3 (some { msg := "closed" }) trackingReceiver).2.2.1⟩

end Messages

section ProviderFacts

variable {α μ σ : Type}

/-- C8: `Get` resolves the admin client by `targetShardKey.ClusterName`. If the
resolution fails, `Get` returns that error and its only remote call is the
resolution. Otherwise it calls `StreamWorkflowReplicationMessages` exactly
once, on the resolved client, with the context whose outgoing metadata is
`EncodeClusterShardMD` of (source cluster name, source shard id) and (target
cluster name, target shard id), and returns the result of that call unchanged. -/
theorem get_calls (p : StreamBiDirectionStreamClientProvider α)
    (EncodeClusterShardMD : ClusterShardID → ClusterShardID → μ) (admin : AdminService α μ σ)
    (ctx : Context μ) (sourceShardKey targetShardKey : ClusterShardKey) :
    (∀ err : GoError,
        p.clientBean.GetRemoteAdminClient targetShardKey.ClusterName = .error err →
        p.Get EncodeClusterShardMD admin ctx sourceShardKey targetShardKey =
          ((none, some err), [.GetRemoteAdminClient targetShardKey.ClusterName])) ∧
      (∀ adminClient : α,
        p.clientBean.GetRemoteAdminClient targetShardKey.ClusterName = .ok adminClient →
        ∃ ctx1 : Context μ,
          ctx1.outgoingMD = some
              (EncodeClusterShardMD
                { ClusterName := sourceShardKey.ClusterName, ShardID := sourceShardKey.ShardID }
                { ClusterName := targetShardKey.ClusterName, ShardID := targetShardKey.ShardID }) ∧
            ctx1.base = ctx.base ∧
            p.Get EncodeClusterShardMD admin ctx sourceShardKey targetShardKey =
              (admin.StreamWorkflowReplicationMessages adminClient ctx1,
                [.GetRemoteAdminClient targetShardKey.ClusterName,
                 .StreamWorkflowReplicationMessages adminClient ctx1])) := by
  refine ⟨?_, ?_⟩
  · intro err h
    simp [StreamBiDirectionStreamClientProvider.Get, h]
  · intro adminClient h
    refine ⟨NewOutgoingContext ctx
      (EncodeClusterShardMD
        { ClusterName := sourceShardKey.ClusterName, ShardID := sourceShardKey.ShardID }
        { ClusterName := targetShardKey.ClusterName, ShardID := targetShardKey.ShardID }),
      rfl, rfl, ?_⟩
    simp [StreamBiDirectionStreamClientProvider.Get, h]

/-- C8, instance: for the known target cluster `b` the provider calls the
admin client 7 once, with the metadata of the two shard keys; for an unknown
target cluster it returns the resolution error. -/
theorem get_calls_witness :
    (NewStreamBiDirectionStreamClientProvider scenarioClientBean).Get Prod.mk scenarioAdmin
        { outgoingMD := none, base := 0 } (NewClusterShardKey "a" 1) (NewClusterShardKey "c" 2) =
      ((none, some { msg := "unknown cluster" }), [.GetRemoteAdminClient "c"]) ∧
    ((NewStreamBiDirectionStreamClientProvider scenarioClientBean).Get Prod.mk scenarioAdmin
        { outgoingMD := none, base := 0 } (NewClusterShardKey "a" 1)
        (NewClusterShardKey "b" 2)).1 =
      (some (7, some ({ ClusterName := "a", ShardID := 1 }, { ClusterName := "b", ShardID := 2 })),
        none) :=
  ⟨(get_calls (NewStreamBiDirectionStreamClientProvider scenarioClientBean) Prod.mk scenarioAdmin
      { outgoingMD := none, base := 0 } (NewClusterShardKey "a" 1)
      (NewClusterShardKey "c" 2)).1 { msg := "unknown cluster" } rfl,
    by decide⟩

end ProviderFacts

section Tracker

theorem markAcked_ids (taskId : Int) (t : TrackerModel) : (t.markAcked taskId).ids = t.ids := by
  simp only [TrackerModel.markAcked, TrackerModel.ids, List.map_map]
  apply List.map_congr_left
  intro task _
  simp only [Function.comp]
  split <;> rfl

theorem pruneAcked_suffix (tasks : List Task) : ∃ pre, tasks = pre ++ pruneAcked tasks := by
  induction tasks with
  | nil => exact ⟨[], rfl⟩
  | cons task rest ih =>
    by_cases h : task.state = .acked
    · obtain ⟨pre, hpre⟩ := ih
      refine ⟨task :: pre, ?_⟩
      simp only [pruneAcked, h, if_true, List.cons_append]
      rw [← hpre]
    · exact ⟨[], by simp [pruneAcked, h]⟩

theorem lowWatermarks_cancelled (ops : List TrackerOp) :
    ∀ t : TrackerModel, t.cancelled = true → lowWatermarks ops t = [] := by
  induction ops with
  | nil => intro t _; rfl
  | cons op ops ih =>
    intro t h
    cases op with
    | track high tasks =>
      simp only [lowWatermarks, trackerStep]
      exact ih _ (by simp [TrackerModel.TrackTasks, h])
    | ack taskId =>
      simp only [lowWatermarks, trackerStep]
      exact ih _ (by simp [TrackerModel.markAcked, h])
    | lowWatermark =>
      have h1 : t.LowWatermark = (none, t) := by simp [TrackerModel.LowWatermark, h]
      simp only [lowWatermarks, trackerStep, h1]
      exact ih _ h
    | cancel =>
      simp only [lowWatermarks, trackerStep]
      exact ih _ (by simp [TrackerModel.Cancel])

theorem raiseCeiling_watermark (ceiling : Option WatermarkInfo) (high : WatermarkInfo) :
    (raiseCeiling ceiling high).map WatermarkInfo.Watermark =
      nextCeiling (ceiling.map WatermarkInfo.Watermark) high.Watermark := by
  cases ceiling with
  | none => rfl
  | some c =>
    simp only [raiseCeiling, Option.map_some', nextCeiling]
    split
    · rename_i hlt
      simp [max_eq_right (le_of_lt hlt)]
    · rename_i hge
      simp [max_eq_left (not_lt.mp hge)]

theorem trackerInv_track (t : TrackerModel) (ceiling last : Option Int) (high : WatermarkInfo)
    (tasks : List Task) (hc : t.cancelled = false) (inv : trackerInv t ceiling last)
    (hasc : (tasks.map Task.taskId).Pairwise (· < ·))
    (hhigh : ∀ task ∈ tasks, task.taskId ≤ high.Watermark)
    (hceil : ∀ c, ceiling = some c → ∀ task ∈ tasks, c < task.taskId) :
    trackerInv (t.TrackTasks high tasks) (nextCeiling ceiling high.Watermark) last := by
  obtain ⟨ia, ib, ic, id⟩ := inv
  have hids : (t.TrackTasks high tasks).ids = t.ids ++ tasks.map Task.taskId := by
    simp [TrackerModel.TrackTasks, hc, TrackerModel.ids]
  have hceiling : (t.TrackTasks high tasks).ceiling = raiseCeiling t.ceiling high := by
    simp [TrackerModel.TrackTasks, hc]
  refine ⟨?_, ?_, ?_, ?_⟩
  · rw [hids, List.pairwise_append]
    refine ⟨ia, hasc, ?_⟩
    intro i hi j hj
    obtain ⟨c, hcs, hic⟩ := ic i hi
    obtain ⟨task, htask, rfl⟩ := List.mem_map.mp hj
    have := hceil c hcs task htask
    omega
  · rw [hceiling, raiseCeiling_watermark, ib]
  · intro i hi
    rw [hids, List.mem_append] at hi
    rcases hi with hi | hi
    · obtain ⟨c, hcs, hic⟩ := ic i hi
      subst hcs
      exact ⟨max c high.Watermark, rfl, le_trans hic (le_max_left _ _)⟩
    · obtain ⟨task, htask, rfl⟩ := List.mem_map.mp hi
      have h1 := hhigh task htask
      cases ceiling with
      | none => exact ⟨high.Watermark, rfl, h1⟩
      | some c => exact ⟨max c high.Watermark, rfl, le_trans h1 (le_max_right _ _)⟩
  · intro w hw
    obtain ⟨h1, c, hcs, hwc⟩ := id w hw
    subst hcs
    refine ⟨?_, max c high.Watermark, rfl, le_trans hwc (le_max_left _ _)⟩
    intro i hi
    rw [hids, List.mem_append] at hi
    rcases hi with hi | hi
    · exact h1 i hi
    · obtain ⟨task, htask, rfl⟩ := List.mem_map.mp hi
      have := hceil c rfl task htask
      omega

theorem lowWatermark_nil (t : TrackerModel) (hc : t.cancelled = false)
    (hp : pruneAcked t.tasks = []) :
    t.LowWatermark = (t.ceiling, { t with tasks := [] }) := by
  simp [TrackerModel.LowWatermark, hc, hp]

theorem lowWatermark_cons (t : TrackerModel) (first : Task) (rest : List Task)
    (hc : t.cancelled = false) (hp : pruneAcked t.tasks = first :: rest) :
    t.LowWatermark =
      (some { Watermark := first.taskId - 1, Timestamp := first.sourceTime },
        { t with tasks := first :: rest }) := by
  simp [TrackerModel.LowWatermark, hc, hp]

theorem trackerInv_lowWatermark (t : TrackerModel) (ceiling last : Option Int)
    (hc : t.cancelled = false) (inv : trackerInv t ceiling last) :
    t.LowWatermark.2.cancelled = false ∧
      (t.LowWatermark.1 = none → trackerInv t.LowWatermark.2 ceiling last) ∧
      (∀ info, t.LowWatermark.1 = some info →
        trackerInv t.LowWatermark.2 ceiling (some info.Watermark) ∧
          ∀ w, last = some w → w ≤ info.Watermark) := by
  obtain ⟨ia, ib, ic, id⟩ := inv
  obtain ⟨pre, hpre⟩ := pruneAcked_suffix t.tasks
  have hidsplit : t.ids = pre.map Task.taskId ++ (pruneAcked t.tasks).map Task.taskId := by
    simp only [TrackerModel.ids]
    rw [← List.map_append, ← hpre]
  cases hp : pruneAcked t.tasks with
  | nil =>
    rw [lowWatermark_nil t hc hp]
    refine ⟨hc, ?_, ?_⟩
    · intro _
      refine ⟨by simp [TrackerModel.ids], ib, by simp [TrackerModel.ids], ?_⟩
      intro w hw
      exact ⟨by simp [TrackerModel.ids], (id w hw).2⟩
    · intro info hinfo
      simp only at hinfo
      have hcw : ceiling = some info.Watermark := by rw [← ib, hinfo]; rfl
      refine ⟨⟨by simp [TrackerModel.ids], ib, by simp [TrackerModel.ids], ?_⟩, ?_⟩
      · intro w hw
        refine ⟨by simp [TrackerModel.ids], info.Watermark, hcw, ?_⟩
        simp only [Option.some.injEq] at hw
        omega
      · intro w hw
        obtain ⟨_, c, hcs, hwc⟩ := id w hw
        rw [hcw] at hcs
        simp only [Option.some.injEq] at hcs
        omega
  | cons first rest =>
    rw [hp] at hidsplit
    have hsub : ∀ i ∈ (first :: rest).map Task.taskId, i ∈ t.ids := by
      intro i hi
      rw [hidsplit]
      exact List.mem_append_right _ hi
    have hpw : ((first :: rest).map Task.taskId).Pairwise (· < ·) := by
      rw [hidsplit] at ia
      exact (List.pairwise_append.mp ia).2.1
    have hfirst : first.taskId ∈ t.ids := hsub _ (by simp)
    rw [lowWatermark_cons t first rest hc hp]
    refine ⟨hc, ?_, ?_⟩
    · intro h; simp at h
    · intro info hinfo
      simp only [Option.some.injEq] at hinfo
      subst hinfo
      refine ⟨⟨hpw, ib, fun i hi => ic i (hsub i hi), ?_⟩, ?_⟩
      · intro w hw
        simp only [Option.some.injEq] at hw
        subst hw
        refine ⟨?_, ?_⟩
        · intro i hi
          simp only [TrackerModel.ids, List.map_cons, List.mem_cons] at hi
          simp only [List.map_cons, List.pairwise_cons] at hpw
          rcases hi with hi | hi
          · omega
          · have := hpw.1 i hi
            omega
        · obtain ⟨c, hcs, hic⟩ := ic _ hfirst
          exact ⟨c, hcs, by omega⟩
      · intro w hw
        have := (id w hw).1 _ hfirst
        simpa using this

theorem trackerInv_markAcked (t : TrackerModel) (ceiling last : Option Int) (taskId : Int)
    (inv : trackerInv t ceiling last) : trackerInv (t.markAcked taskId) ceiling last := by
  unfold trackerInv at inv ⊢
  rw [markAcked_ids]
  exact inv

theorem watermarksBound_track (high : WatermarkInfo) (tasks : List Task) (rest : List TrackerOp)
    (ceiling : Option Int) (h : watermarksBound (.track high tasks :: rest) ceiling = true) :
    (∀ task ∈ tasks, task.taskId ≤ high.Watermark) ∧
      (∀ c, ceiling = some c → ∀ task ∈ tasks, c < task.taskId) ∧
      watermarksBound rest (nextCeiling ceiling high.Watermark) = true := by
  simp only [watermarksBound, Bool.and_eq_true, List.all_eq_true, decide_eq_true_eq] at h
  obtain ⟨⟨h1, h2⟩, h3⟩ := h
  refine ⟨h1, ?_, h3⟩
  intro c hc task htask
  subst hc
  simp only [aboveCeiling, List.all_eq_true, decide_eq_true_eq] at h2
  exact h2 task htask

theorem idsAscend_track (high : WatermarkInfo) (tasks : List Task) (rest : List TrackerOp)
    (seen : List Int) (h : idsAscend (.track high tasks :: rest) seen = true) :
    (tasks.map Task.taskId).Pairwise (· < ·) ∧
      idsAscend rest (seen ++ tasks.map Task.taskId) = true := by
  simp only [idsAscend, Bool.and_eq_true, decide_eq_true_eq] at h
  exact ⟨h.1.1, h.2⟩

/-- Monotonicity of the low watermark from any tracker state that satisfies
the invariant. -/
theorem lowWatermarks_monotone_from (ops : List TrackerOp) :
    ∀ (t : TrackerModel) (seen : List Int) (ceiling last : Option Int),
      (t.cancelled = false → trackerInv t ceiling last) →
      idsAscend ops seen = true → watermarksBound ops ceiling = true →
      (lowWatermarks ops t).Pairwise (· ≤ ·) ∧
        ∀ w, last = some w → ∀ x ∈ lowWatermarks ops t, w ≤ x := by
  induction ops with
  | nil => intro t seen ceiling last _ _ _; simp [lowWatermarks]
  | cons op ops ih =>
    intro t seen ceiling last inv hids hwm
    by_cases hc : t.cancelled = true
    · rw [lowWatermarks_cancelled _ t hc]
      simp
    · have hc : t.cancelled = false := by simpa using hc
      have inv := inv hc
      cases op with
      | track high tasks =>
        obtain ⟨h1, h2, h3⟩ := watermarksBound_track high tasks ops ceiling hwm
        obtain ⟨h4, h5⟩ := idsAscend_track high tasks ops seen hids
        simp only [lowWatermarks, trackerStep]
        exact ih _ _ _ last (fun _ => trackerInv_track t ceiling last high tasks hc inv h4 h1 h2)
          h5 h3
      | ack taskId =>
        simp only [lowWatermarks, trackerStep]
        exact ih _ seen ceiling last (fun _ => trackerInv_markAcked t ceiling last taskId inv)
          (by simpa [idsAscend] using hids) (by simpa [watermarksBound] using hwm)
      | cancel =>
        simp only [lowWatermarks, trackerStep]
        rw [lowWatermarks_cancelled _ _ (by simp [TrackerModel.Cancel])]
        simp
      | lowWatermark =>
        obtain ⟨k1, k2, k3⟩ := trackerInv_lowWatermark t ceiling last hc inv
        have hids1 : idsAscend ops seen = true := by simpa [idsAscend] using hids
        have hwm1 : watermarksBound ops ceiling = true := by simpa [watermarksBound] using hwm
        cases hres : t.LowWatermark.1 with
        | none =>
          simp only [lowWatermarks, trackerStep, hres]
          exact ih _ seen ceiling last (fun _ => k2 hres) hids1 hwm1
        | some info =>
          obtain ⟨k4, k5⟩ := k3 info hres
          obtain ⟨m1, m2⟩ := ih t.LowWatermark.2 seen ceiling (some info.Watermark)
            (fun _ => k4) hids1 hwm1
          simp only [lowWatermarks, trackerStep, hres]
          refine ⟨List.pairwise_cons.mpr ⟨fun x hx => m2 _ rfl x hx, m1⟩, ?_⟩
          intro w hw x hx
          rcases List.mem_cons.mp hx with hx | hx
          · subst hx; exact k5 w hw
          · exact le_trans (k5 w hw) (m2 _ rfl x hx)

theorem sentIds_append {κ : Type} (l₁ l₂ : List (Event κ)) :
    sentIds (l₁ ++ l₂) = sentIds l₁ ++ sentIds l₂ := by
  induction l₁ with
  | nil => rfl
  | cons e l ih => cases e <;> simp [sentIds, ih]

theorem sentIds_map_submit {κ : Type} (tasks : List κ) :
    sentIds (tasks.map Event.submit) = [] := by
  induction tasks with
  | nil => rfl
  | cons t ts ih => simp [sentIds, ih]

theorem lowWatermarks_append (ops₁ : List TrackerOp) :
    ∀ (ops₂ : List TrackerOp) (t : TrackerModel),
      lowWatermarks (ops₁ ++ ops₂) t =
        lowWatermarks ops₁ t ++
          lowWatermarks ops₂ (ops₁.foldl (fun acc op => (trackerStep op acc).2) t) := by
  induction ops₁ with
  | nil => intro ops₂ t; rfl
  | cons op ops ih =>
    intro ops₂ t
    simp only [List.cons_append, lowWatermarks, List.foldl_cons]
    split <;> simp [ih]

/-- What one receiver operation does to the tracker and to the sent ids, in
terms of the tracker operations it amounts to. -/
theorem receiverStep_tracker {ρ : Type} (op : ReceiverOp ρ)
    (r : StreamReceiver TrackerModel ρ Task) :
    (receiverStep op r).toolBox = r.toolBox ∧
      (receiverStep op r).targetShardKey = r.targetShardKey ∧
      (receiverStep op r).taskTracker =
        (toTrackerOp r.toolBox r.targetShardKey op).foldl
          (fun acc o => (trackerStep o acc).2) r.taskTracker ∧
      sentIds (receiverStep op r).trace =
        sentIds r.trace ++
          lowWatermarks (toTrackerOp r.toolBox r.targetShardKey op) r.taskTracker := by
  cases op with
  | frame resp =>
    simp [receiverStep, toTrackerOp, processResp, submitAll_eq, emit, trackerStep, specTracker,
      lowWatermarks, sentIds_append, sentIds, sentIds_map_submit]
  | ack taskId =>
    simp [receiverStep, toTrackerOp, trackerStep, lowWatermarks]
  | reconnect now =>
    simp [receiverStep, toTrackerOp, replaceStream, emit, lowWatermarks, sentIds_append, sentIds]
  | ackMessage sendErr =>
    simp only [receiverStep, toTrackerOp, ackMessage, specTracker, trackerStep, lowWatermarks,
      List.foldl_cons, List.foldl_nil]
    rcases hlw : r.taskTracker.LowWatermark with ⟨w, t⟩
    cases w with
    | none => simp
    | some info => cases sendErr <;> simp [emit, sentIds_append, sentIds]

theorem receiverRun_sentIds {ρ : Type} (ops : List (ReceiverOp ρ)) :
    ∀ r : StreamReceiver TrackerModel ρ Task,
      sentIds (receiverRun ops r).trace =
        sentIds r.trace ++
          lowWatermarks (ops.map (toTrackerOp r.toolBox r.targetShardKey)).flatten
            r.taskTracker := by
  induction ops with
  | nil => intro r; simp [receiverRun, lowWatermarks]
  | cons op ops ih =>
    intro r
    obtain ⟨h1, h2, h3, h4⟩ := receiverStep_tracker op r
    have h := ih (receiverStep op r)
    simp only [receiverRun, List.foldl_cons] at h ⊢
    rw [h, h1, h2, h3, h4]
    simp [lowWatermarks_append]

/-- C9 (as stated): on the modelled tracker, sequences of operations whose
`TrackTasks` calls hand over pending tasks with ascending ids, each greater
than every id tracked before, yield decreasing low watermarks. In the first
the low watermarks are 100 and then 49: the first call's high watermark 100
exceeds the id 50 tracked later. In the second they are 4 and then 3: the
call's high watermark 3 lies below its task id 5. -/
theorem lowWatermark_not_monotone :
    (idsAscend ceilingAboveLaterTask [] = true ∧
      tracksPending ceilingAboveLaterTask = true ∧
      lowWatermarks ceilingAboveLaterTask NewExecutableTaskTracker = [100, 49] ∧
      ¬ (lowWatermarks ceilingAboveLaterTask NewExecutableTaskTracker).Pairwise (· ≤ ·)) ∧
    (idsAscend ceilingBelowTask [] = true ∧
      tracksPending ceilingBelowTask = true ∧
      lowWatermarks ceilingBelowTask NewExecutableTaskTracker = [4, 3] ∧
      ¬ (lowWatermarks ceilingBelowTask NewExecutableTaskTracker).Pairwise (· ≤ ·)) := by
  decide

/-- C9 (amended): when, in every `TrackTasks` call, the task ids ascend, are
greater than every id tracked before, are at most the high watermark of the
call and are greater than the high watermark of every earlier call, the
successive non-none results of `LowWatermark()` are non-decreasing in their
watermark, whatever acknowledgements and cancellations are interleaved; and
when these are the tracker operations a receiver performs, the
`lastProcessedMessageId` values it sends through `ackMessage` are exactly
these results, so they are non-decreasing too. -/
theorem lowWatermark_monotone (ops : List TrackerOp)
    (hids : idsAscend ops [] = true) (hwm : watermarksBound ops none = true) :
    (lowWatermarks ops NewExecutableTaskTracker).Pairwise (· ≤ ·) ∧
      ∀ (ρ : Type) (processToolBox : ProcessToolBox ρ Task)
        (sourceShardKey targetShardKey : ClusterShardKey) (now : Int)
        (rops : List (ReceiverOp ρ)),
        (rops.map (toTrackerOp processToolBox targetShardKey)).flatten = ops →
        sentIds (receiverRun rops
            (NewStreamReceiver processToolBox sourceShardKey targetShardKey
              NewExecutableTaskTracker now)).trace =
          lowWatermarks ops NewExecutableTaskTracker ∧
        (sentIds (receiverRun rops
            (NewStreamReceiver processToolBox sourceShardKey targetShardKey
              NewExecutableTaskTracker now)).trace).Pairwise (· ≤ ·) := by
  have hmono := (lowWatermarks_monotone_from ops NewExecutableTaskTracker [] none none
    (fun _ => by simp [trackerInv, NewExecutableTaskTracker, TrackerModel.ids]) hids hwm).1
  refine ⟨hmono, ?_⟩
  intro ρ processToolBox sourceShardKey targetShardKey now rops hrops
  have hsent := receiverRun_sentIds rops
    (NewStreamReceiver processToolBox sourceShardKey targetShardKey
      NewExecutableTaskTracker now)
  simp only [NewStreamReceiver, sentIds, List.nil_append] at hsent
  rw [hrops] at hsent
  simp only [NewStreamReceiver]
  exact ⟨hsent, hsent ▸ hmono⟩

/-- C9 (amended), instance: `scenarioReceiverOps` meets the preconditions and
the receiver sends the watermarks 5, 6, 7, 9. -/
theorem lowWatermark_monotone_witness :
    idsAscend scenarioTrackerOps [] = true ∧
      watermarksBound scenarioTrackerOps none = true ∧
      lowWatermarks scenarioTrackerOps NewExecutableTaskTracker = [5, 6, 7, 9] ∧
      (lowWatermarks scenarioTrackerOps NewExecutableTaskTracker).Pairwise (· ≤ ·) ∧
      sentIds (receiverRun scenarioReceiverOps
          (NewStreamReceiver scenarioToolBox (NewClusterShardKey "a" 1)
            (NewClusterShardKey "b" 2) NewExecutableTaskTracker 0)).trace =
        lowWatermarks scenarioTrackerOps NewExecutableTaskTracker :=
  ⟨by decide, by decide, by decide,
    (lowWatermark_monotone scenarioTrackerOps (by decide) (by decide)).1,
    ((lowWatermark_monotone scenarioTrackerOps (by decide) (by decide)).2 Task scenarioToolBox
      (NewClusterShardKey "a" 1) (NewClusterShardKey "b" 2) 0 scenarioReceiverOps
      (by decide)).1⟩

end Tracker

section Interleaving

variable {τ ρ κ : Type}

theorem closedStreams_append (l₁ l₂ : List (Event κ)) :
    closedStreams (l₁ ++ l₂) = closedStreams l₁ ++ closedStreams l₂ := by
  induction l₁ with
  | nil => rfl
  | cons e l ih => cases e <;> simp [closedStreams, ih]

theorem newStreams_append (l₁ l₂ : List (Event κ)) :
    newStreams (l₁ ++ l₂) = newStreams l₁ ++ newStreams l₂ := by
  induction l₁ with
  | nil => rfl
  | cons e l ih => cases e <;> simp [newStreams, ih]

theorem closedStreams_map_submit (tasks : List κ) :
    closedStreams (tasks.map Event.submit) = [] := by
  induction tasks with
  | nil => rfl
  | cons t ts ih => simp [closedStreams, ih]

theorem newStreams_map_submit (tasks : List κ) :
    newStreams (tasks.map Event.submit) = [] := by
  induction tasks with
  | nil => rfl
  | cons t ts ih => simp [newStreams, ih]

theorem view_startGoSend (r : StreamReceiver τ ρ κ) : view (startGoSend r) = view r := by
  simp [view, startGoSend, emit, closedStreams_append, newStreams_append, closedStreams, newStreams]

theorem view_startGoRecv (r : StreamReceiver τ ρ κ) : view (startGoRecv r) = view r := by
  simp [view, startGoRecv, emit, closedStreams_append, newStreams_append, closedStreams, newStreams]

theorem view_startLog (r : StreamReceiver τ ρ κ) : view (startLog r) = view r := by
  simp [view, startLog, emit, closedStreams_append, newStreams_append, closedStreams, newStreams]

theorem view_stopLog (r : StreamReceiver τ ρ κ) : view (stopLog r) = view r := by
  simp [view, stopLog, emit, closedStreams_append, newStreams_append, closedStreams, newStreams]

theorem view_stopCancel (T : ExecutableTaskTracker τ κ) (r : StreamReceiver τ ρ κ) :
    view (stopCancel T r) = view r := by
  simp [view, stopCancel, emit, closedStreams_append, newStreams_append, closedStreams, newStreams]

theorem view_stopShutdown (r : StreamReceiver τ ρ κ) :
    view (stopShutdown r) = { view r with shutdownChan := true } := by
  simp [view, stopShutdown, emit, closedStreams_append, newStreams_append, closedStreams,
    newStreams]

theorem view_stopClose (r : StreamReceiver τ ρ κ) :
    view (stopClose r) = { view r with closed := (view r).closed ++ [(view r).stream] } := by
  simp [view, stopClose, emit, closedStreams_append, newStreams_append, closedStreams, newStreams]

theorem view_setStatus (r : StreamReceiver τ ρ κ) (st : DaemonStatus) :
    view { r with status := st } = { view r with status := st } := by
  simp [view]

theorem view_setTracker (r : StreamReceiver τ ρ κ) (t : τ) :
    view { r with taskTracker := t } = view r := by
  simp [view]

theorem view_processRecv (stream : Nat) (err : Option GoError) (r : StreamReceiver τ ρ κ) :
    view (processRecv stream err r) = view r := by
  cases err <;>
    simp [view, processRecv, emit, closedStreams_append, newStreams_append, closedStreams,
      newStreams]

theorem view_processClosed (r : StreamReceiver τ ρ κ) : view (processClosed r) = view r := by
  simp [view, processClosed, emit, closedStreams_append, newStreams_append, closedStreams,
    newStreams]

theorem view_processErr (r : StreamReceiver τ ρ κ) : view (processErr r) = view r := by
  simp [view, processErr, emit, closedStreams_append, newStreams_append, closedStreams,
    newStreams]

theorem view_processResp (T : ExecutableTaskTracker τ κ) (resp : WorkflowReplicationMessages ρ)
    (r : StreamReceiver τ ρ κ) : view (processResp T resp r) = view r := by
  simp [view, processResp, submitAll_eq, emit, closedStreams_append, newStreams_append,
    closedStreams, newStreams, closedStreams_map_submit, newStreams_map_submit]

theorem view_ackMessage (T : ExecutableTaskTracker τ κ) (stream : Nat)
    (sendErr : Option GoError) (r : StreamReceiver τ ρ κ) :
    view (ackMessage T stream sendErr r) = view r := by
  unfold ackMessage
  rcases hlw : T.LowWatermark r.taskTracker with ⟨w, t⟩
  cases w with
  | none => simp [view]
  | some info =>
    cases sendErr <;>
      simp [view, emit, closedStreams_append, newStreams_append, closedStreams, newStreams]

theorem view_replaceStream (now : Int) (r : StreamReceiver τ ρ κ) :
    view (replaceStream now r) =
      { view r with
        streamCreationTime := now
        stream := (view r).nextStream
        nextStream := (view r).nextStream + 1
        installs := (view r).installs ++
          [((view r).stream, (view r).nextStream, (view r).streamCreationTime, now)] } := by
  simp [view, replaceStream, emit, closedStreams_append, newStreams_append, closedStreams,
    newStreams]

theorem status_eq_view (r : StreamReceiver τ ρ κ) : r.status = (view r).status := rfl

theorem minReconnect_eq_view (r : StreamReceiver τ ρ κ) :
    r.toolBox.ReplicationStreamMinReconnectDuration = (view r).minReconnect := rfl

theorem view_stopStep (T : ExecutableTaskTracker τ κ) (p : StopPc) (r : StreamReceiver τ ρ κ) :
    view (stopStep T p r).2 = p.viewAfter (view r) ∧ (stopStep T p r).1 = p.next (view r) := by
  cases p
  · simp only [stopStep, StopPc.viewAfter, StopPc.next, ← status_eq_view]
    split <;> simp [view_setStatus]
  · simp [stopStep, view_stopShutdown, StopPc.viewAfter, StopPc.next]
  · simp [stopStep, view_stopClose, StopPc.viewAfter, StopPc.next]
  · simp [stopStep, view_stopCancel, StopPc.viewAfter, StopPc.next]
  · simp [stopStep, view_stopLog, StopPc.viewAfter, StopPc.next]
  · simp [stopStep, StopPc.viewAfter, StopPc.next]

theorem supAfterStop_closePending (p : StopPc) :
    (supAfterStop p).closePending = p.closePending := by
  cases p <;> rfl

theorem recvAfterStop_closePending (p : StopPc) :
    (recvAfterStop p).closePending = p.closePending := by
  cases p <;> rfl

theorem sendAfterStop_closePending (p : StopPc) :
    (sendAfterStop p).closePending = p.closePending := by
  cases p <;> rfl

theorem closeInvV_stop (p : StopPc) (v : View) (k : Nat)
    (h : closeInvV v (p.closePending + k)) :
    closeInvV (p.viewAfter v) ((p.next v).closePending + k) := by
  rcases v with ⟨status, sh, sct, stream, next, m, closed, installs⟩
  unfold closeInvV at h ⊢
  obtain ⟨h1, h2, h3, h4, h5⟩ := h
  cases p <;>
    simp only [StopPc.viewAfter, StopPc.next, StopPc.closePending, List.length_append,
      List.length_singleton, List.mem_append, List.mem_singleton] at h1 h2 h3 h4 h5 ⊢
  · by_cases hs : status = .Started
    · simp only [hs, if_true]
      have h0 := h1 (by simp [hs])
      refine ⟨fun hne => (hne rfl).elim, ?_, h3, h4, h5⟩
      omega
    · simp only [hs, if_false]
      exact ⟨h1, h2, h3, h4, h5⟩
  · exact ⟨h1, h2, h3, h4, h5⟩
  · refine ⟨fun hs => ?_, by omega, h3, ?_, h5⟩
    · have := h1 hs; omega
    · intro x hx
      rcases hx with hx | hx
      · exact h4 x hx
      · subst hx; exact h3
  · exact ⟨h1, h2, h3, h4, h5⟩
  · exact ⟨h1, h2, h3, h4, h5⟩
  · exact ⟨h1, h2, h3, h4, h5⟩

theorem closeInvV_replace (v : View) (k : Nat) (now : Int) (h : closeInvV v k) :
    closeInvV
      { v with
        streamCreationTime := now
        stream := v.nextStream
        nextStream := v.nextStream + 1
        installs := v.installs ++ [(v.stream, v.nextStream, v.streamCreationTime, now)] } k := by
  rcases v with ⟨status, sh, sct, stream, next, m, closed, installs⟩
  unfold closeInvV at h ⊢
  simp only [List.mem_append, List.mem_singleton] at h ⊢
  obtain ⟨h1, h2, h3, h4, h5⟩ := h
  refine ⟨h1, h2, by omega, ?_, ?_⟩
  · intro x hx
    have := h4 x hx
    omega
  · intro n hn
    rcases hn with hn | hn
    · have := h5 n hn
      omega
    · subst hn
      exact h3

theorem viewAfter_status (p : StopPc) (v : View) (h : (p.viewAfter v).status = .Initialized) :
    v.status = .Initialized := by
  cases p <;> simp only [StopPc.viewAfter] at h <;> try exact h
  split at h
  · simp at h
  · exact h

theorem spawnInv_step (T : ExecutableTaskTracker τ κ) (a : Action τ ρ) (s : System τ ρ κ)
    (h : spawnInv s) : spawnInv (step T a s) := by
  rcases s with ⟨r, clock, sup, recvLoop, sendLoop⟩
  simp only [spawnInv] at h ⊢
  cases a with
  | setClock t => exact h
  | taskUpdate f => simpa only [step, view_setTracker] using h
  | callStart =>
    cases sup
    · simp only [step, callStart]
      split
      · rename_i hs
        rw [status_eq_view] at hs
        have := h.1 hs
        simp_all [view_setStatus]
      · exact h
    · exact h
    · exact h
  | callStop =>
    cases sup
    · obtain ⟨hv, hp⟩ := view_stopStep T .cas r
      simp only [step, callStop, hv, hp]
      by_cases hs : (view r).status = .Started
      · simp [StopPc.viewAfter, StopPc.next, hs, supAfterStop]
      · simpa [StopPc.viewAfter, StopPc.next, hs, supAfterStop] using h
    · exact h
    · exact h
  | supStep =>
    cases sup with
    | idle => exact h
    | start p =>
      cases p <;>
        simp_all [step, supStep, view_startGoSend, view_startGoRecv, view_startLog]
    | stop p =>
      obtain ⟨hv, hp⟩ := view_stopStep T p r
      simp only [step, supStep, hv, hp]
      refine ⟨fun hs => ?_, ?_, ?_⟩
      · have := h.1 (viewAfter_status p _ hs)
        simp at this
      · intro hsup; cases p <;> simp [supAfterStop, StopPc.next] at hsup
        split at hsup <;> simp at hsup
      · intro hsup; cases p <;> simp [supAfterStop, StopPc.next] at hsup
        split at hsup <;> simp at hsup
  | recvStep =>
    cases recvLoop with
    | loopHead =>
      simp only [step, recvEventLoop]
      split <;> simp_all
    | computeDelay sct =>
      simp only [step, recvEventLoop]
      split <;> simp_all
    | replace =>
      simp_all [step, recvEventLoop, view_replaceStream]
    | deferred p =>
      obtain ⟨hv, hp⟩ := view_stopStep T p r
      simp only [step, recvEventLoop, hv, hp]
      refine ⟨fun hs => ?_, ?_, ?_⟩
      · have := h.1 (viewAfter_status p _ hs)
        simp at this
      · intro hsup; have := h.2.1 hsup; simp at this
      · intro hsup; have := h.2.2 hsup; simp at this
    | notStarted => exact h
    | lockSnapshot => simp_all [step, recvEventLoop]
    | callRecv _ _ => exact h
    | range _ _ => exact h
    | enterSelect _ => simp_all [step, recvEventLoop]
    | select _ => exact h
    | exited => exact h
  | recvCall err =>
    cases recvLoop <;> cases err <;> simp_all [step, processMessagesRecv, view_processRecv]
  | recvElem e =>
    cases recvLoop <;> rcases e with _ | ⟨resp, _ | err⟩ <;>
      simp_all [step, processMessagesRange, view_processClosed, view_processErr, view_processResp]
  | recvWake w =>
    cases recvLoop <;> cases w <;> simp only [step, recvEventLoopSelect] <;> (try split) <;> simp_all
  | sendWake w =>
    cases sendLoop <;> cases w <;> simp only [step, sendEventLoopSelect] <;> (try split) <;> simp_all
  | sendStep sendErr =>
    cases sendLoop with
    | ackMessage stream => simp_all [step, sendEventLoop, view_ackMessage]
    | deferred p =>
      obtain ⟨hv, hp⟩ := view_stopStep T p r
      simp only [step, sendEventLoop, hv, hp]
      refine ⟨fun hs => ?_, ?_, ?_⟩
      · have := h.1 (viewAfter_status p _ hs)
        simp at this
      · intro hsup; have := h.2.1 hsup; simp at this
      · intro hsup; exact h.2.2 hsup
    | lockSnapshot => simp_all [step, sendEventLoop]
    | _ => exact h

theorem closeInv_step (T : ExecutableTaskTracker τ κ) (a : Action τ ρ) (s : System τ ρ κ)
    (hspawn : spawnInv s) (h : closeInv s) : closeInv (step T a s) := by
  rcases s with ⟨r, clock, sup, recvLoop, sendLoop⟩
  unfold closeInv at h ⊢
  unfold spawnInv at hspawn
  cases a with
  | setClock t => exact h
  | taskUpdate f => simpa only [step, view_setTracker] using h
  | callStart =>
    cases sup <;> simp only [step, callStart] <;> try exact h
    split
    · rename_i hs
      simp only [view_setStatus]
      rw [status_eq_view] at hs
      obtain ⟨h1, h2, h3, h4, h5⟩ := h
      have h0 := h1 (by simp [hs])
      exact ⟨fun _ => h0, h2, h3, h4, h5⟩
    · exact h
  | callStop =>
    cases sup <;> simp only [step, callStop] <;> try exact h
    obtain ⟨hv, hp⟩ := view_stopStep T .cas r
    simp only [hv, hp, supAfterStop_closePending]
    have := closeInvV_stop .cas (view r) (recvLoop.closePending + sendLoop.closePending)
      (by simpa [SupPc.closePending, StopPc.closePending, Nat.add_assoc] using h)
    simpa only [Nat.add_assoc] using this
  | supStep =>
    cases sup with
    | idle => exact h
    | start p =>
      cases p
      · obtain ⟨hsend, hrecv⟩ := hspawn.2.1 rfl
        subst hsend hrecv
        simpa only [step, supStep, view_startGoSend] using h
      · have hrecv := hspawn.2.2 rfl
        subst hrecv
        simpa only [step, supStep, view_startGoRecv] using h
      · simpa only [step, supStep, view_startLog] using h
    | stop p =>
      obtain ⟨hv, hp⟩ := view_stopStep T p r
      simp only [step, supStep, hv, hp, supAfterStop_closePending]
      have := closeInvV_stop p (view r) (recvLoop.closePending + sendLoop.closePending)
        (by simpa only [SupPc.closePending, Nat.add_assoc] using h)
      simpa only [Nat.add_assoc] using this
  | recvStep =>
    cases recvLoop with
    | loopHead =>
      simp only [step, recvEventLoop]
      split <;> exact h
    | computeDelay sct =>
      simp only [step, recvEventLoop]
      split <;> exact h
    | replace =>
      simp only [step, recvEventLoop, view_replaceStream]
      exact closeInvV_replace _ _ _ h
    | deferred p =>
      obtain ⟨hv, hp⟩ := view_stopStep T p r
      simp only [step, recvEventLoop, hv, hp, recvAfterStop_closePending]
      have := closeInvV_stop p (view r) (sup.closePending + sendLoop.closePending)
        (by simpa only [RecvPc.closePending, Nat.add_assoc, Nat.add_comm,
          Nat.add_left_comm] using h)
      simpa only [Nat.add_assoc, Nat.add_comm, Nat.add_left_comm] using this
    | _ => exact h
  | recvCall err =>
    cases recvLoop <;> simp only [step, processMessagesRecv] <;> try exact h
    cases err <;> simpa only [view_processRecv] using h
  | recvElem e =>
    cases recvLoop <;> simp only [step, processMessagesRange] <;> try exact h
    cases e with
    | none => simpa only [view_processClosed] using h
    | some streamResp =>
      simp only
      split
      · simpa only [view_processErr] using h
      · simpa only [view_processResp] using h
  | recvWake w =>
    cases recvLoop <;> simp only [step, recvEventLoopSelect] <;> try exact h
    cases w <;> simp only <;> split <;> exact h
  | sendWake w =>
    cases sendLoop <;> simp only [step, sendEventLoopSelect] <;> try exact h
    cases w
    · exact h
    · simp only
      split <;> exact h
  | sendStep sendErr =>
    cases sendLoop with
    | ackMessage stream => simpa only [step, sendEventLoop, view_ackMessage] using h
    | deferred p =>
      obtain ⟨hv, hp⟩ := view_stopStep T p r
      simp only [step, sendEventLoop, hv, hp, sendAfterStop_closePending]
      have := closeInvV_stop p (view r) (sup.closePending + recvLoop.closePending)
        (by simpa only [SendPc.closePending, Nat.add_assoc, Nat.add_comm,
          Nat.add_left_comm] using h)
      simpa only [Nat.add_assoc, Nat.add_comm, Nat.add_left_comm] using this
    | _ => exact h

theorem run_cons (T : ExecutableTaskTracker τ κ) (a : Action τ ρ) (acts : List (Action τ ρ))
    (s : System τ ρ κ) : run T (a :: acts) s = run T acts (step T a s) := by
  simp [run]

theorem closeInv_run (T : ExecutableTaskTracker τ κ) (acts : List (Action τ ρ)) :
    ∀ s : System τ ρ κ, spawnInv s → closeInv s →
      spawnInv (run T acts s) ∧ closeInv (run T acts s) := by
  induction acts with
  | nil => intro s h1 h2; exact ⟨h1, h2⟩
  | cons a acts ih =>
    intro s h1 h2
    rw [run_cons]
    exact ih _ (spawnInv_step T a s h1) (closeInv_step T a s h1 h2)

theorem closeInv_init (processToolBox : ProcessToolBox ρ κ)
    (sourceShardKey targetShardKey : ClusterShardKey) (tracker : τ) (now : Int) :
    spawnInv (initSystem processToolBox sourceShardKey targetShardKey tracker now) ∧
      closeInv (initSystem processToolBox sourceShardKey targetShardKey tracker now) := by
  constructor
  · simp [spawnInv, initSystem]
  · simp [closeInv, closeInvV, initSystem, view, NewStreamReceiver, closedStreams, newStreams,
      SupPc.closePending, RecvPc.closePending, SendPc.closePending]

/-- C7 (as stated): in the schedule `reconnectThenStop` stream 0 is replaced
by `recvEventLoop` although `Close()` was never called on it, neither before
the replacement nor after: the only `Close()` of the run is the one `Stop`
makes later, on the replacement stream 1. -/
theorem replaced_stream_never_closed :
    replacedStreams
        (run specTracker (reconnectThenStop.take 10) scenarioSystem).r.trace = [0] ∧
      closedStreams (run specTracker (reconnectThenStop.take 10) scenarioSystem).r.trace = [] ∧
      replacedStreams (run specTracker reconnectThenStop scenarioSystem).r.trace = [0] ∧
      closedStreams (run specTracker reconnectThenStop scenarioSystem).r.trace = [1] ∧
      (run specTracker reconnectThenStop scenarioSystem).recvLoop = .exited ∧
      (run specTracker reconnectThenStop scenarioSystem).sup = .idle := by
  decide

theorem recv_action_no_close (T : ExecutableTaskTracker τ κ) (a : Action τ ρ)
    (s : System τ ρ κ) (ha : a.isRecv = true) (hd : s.recvLoop.isDeferred = false) :
    (view (step T a s).r).closed = (view s.r).closed := by
  rcases s with ⟨r, clock, sup, recvLoop, sendLoop⟩
  cases a <;> simp only [Action.isRecv, Bool.false_eq_true] at ha
  · cases recvLoop <;> simp only [RecvPc.isDeferred, Bool.true_eq_false] at hd <;>
      simp only [step, recvEventLoop] <;> (try split) <;> simp [view_replaceStream]
  · rename_i err
    cases recvLoop <;> cases err <;> simp [step, processMessagesRecv, view_processRecv]
  · rename_i e
    cases recvLoop <;> rcases e with _ | ⟨resp, _ | err⟩ <;>
      simp [step, processMessagesRange, view_processClosed, view_processErr, view_processResp]
  · rename_i w
    cases recvLoop <;> cases w <;> simp only [step, recvEventLoopSelect] <;> (try split) <;> rfl

theorem closeInv_facts (T : ExecutableTaskTracker τ κ) (s : System τ ρ κ) (h : closeInv s) :
    (closedStreams s.r.trace).length ≤ 1 ∧
      (closedStreams s.r.trace ≠ [] → s.r.status = .Stopped) ∧
      (s.recvLoop = .replace →
        (step T .recvStep s).r.stream = s.r.nextStream ∧
          (step T .recvStep s).r.trace =
            s.r.trace ++
              [.newStream s.r.stream s.r.nextStream s.r.streamCreationTime s.clock]) ∧
      (∀ a : Action τ ρ, a.isRecv = true → s.recvLoop.isDeferred = false →
        closedStreams (step T a s).r.trace = closedStreams s.r.trace) := by
  obtain ⟨h1, h2, _, _, _⟩ := h
  refine ⟨?_, ?_, ?_, ?_⟩
  · have : (view s.r).closed.length ≤ 1 := by omega
    exact this
  · intro hne
    by_contra hs
    have h0 := h1 hs
    have : (view s.r).closed.length = 0 := by omega
    exact hne (List.length_eq_zero.mp this)
  · intro hpc
    rcases s with ⟨r, clock, sup, recvLoop, sendLoop⟩
    simp only at hpc
    subst hpc
    simp [step, recvEventLoop, replaceStream, emit]
  · intro a ha hd
    exact recv_action_no_close T a s ha hd

/-- C7 (amended): on reconnect `recvEventLoop` replaces the stream without
calling `Close()` on the replaced stream: the replacement statement only
installs the stream returned by `newStream`, and no statement of the loop
other than its deferred `Stop` calls `Close()`. In every run the receiver
calls `Close()` at most once, and only once the status is `Stopped`, that is
from `Stop`; so a replaced stream has been closed by the receiver only if
`Stop` closed it while it was the current stream. -/
theorem close_only_by_stop (T : ExecutableTaskTracker τ κ) (processToolBox : ProcessToolBox ρ κ)
    (sourceShardKey targetShardKey : ClusterShardKey) (tracker : τ) (now : Int)
    (acts : List (Action τ ρ)) :
    (let s := run T acts (initSystem processToolBox sourceShardKey targetShardKey tracker now)
     (closedStreams s.r.trace).length ≤ 1 ∧
       (closedStreams s.r.trace ≠ [] → s.r.status = .Stopped) ∧
       (s.recvLoop = .replace →
         (step T .recvStep s).r.stream = s.r.nextStream ∧
           (step T .recvStep s).r.trace =
             s.r.trace ++
               [.newStream s.r.stream s.r.nextStream s.r.streamCreationTime s.clock]) ∧
       (∀ a : Action τ ρ, a.isRecv = true → s.recvLoop.isDeferred = false →
         closedStreams (step T a s).r.trace = closedStreams s.r.trace)) := by
  obtain ⟨hi1, hi2⟩ := closeInv_init processToolBox sourceShardKey targetShardKey tracker now
  exact closeInv_facts T _ (closeInv_run T acts _ hi1 hi2).2

theorem stop_quiet (p : StopPc) (v : View) (hs : v.status = .Stopped)
    (hp : p.closePending = 0) : p.viewAfter v = v ∧ (p.next v).closePending = 0 := by
  cases p <;> simp [StopPc.closePending] at hp <;>
    simp [StopPc.viewAfter, StopPc.next, hs, StopPc.closePending]

theorem afterCloseInv_recv (x : Nat) (r r₁ : StreamReceiver τ ρ κ) (clock clock₁ : Int)
    (sup : SupPc) (pc pc₁ : RecvPc) (sendLoop : SendPc)
    (hv : view r₁ = view r) (hpc : pc₁.closePending = 0)
    (hit : pc.inIteration = true → pc₁.inIteration = true)
    (h : afterCloseInv x (⟨r, clock, sup, pc, sendLoop⟩ : System τ ρ κ)) :
    afterCloseInv x (⟨r₁, clock₁, sup, pc₁, sendLoop⟩ : System τ ρ κ) := by
  simp only [afterCloseInv, hv] at h ⊢
  obtain ⟨h1, h2, h3, _, h5, h6, h7⟩ := h
  refine ⟨h1, h2, h3, hpc, h5, h6, ?_⟩
  rcases h7 with ⟨h7, h8⟩ | h7
  · exact Or.inl ⟨hit h7, h8⟩
  · exact Or.inr h7

theorem afterCloseInv_send (x : Nat) (r r₁ : StreamReceiver τ ρ κ) (clock : Int)
    (sup : SupPc) (recvLoop : RecvPc) (pc pc₁ : SendPc)
    (hv : view r₁ = view r) (hpc : pc₁.closePending = 0)
    (h : afterCloseInv x (⟨r, clock, sup, recvLoop, pc⟩ : System τ ρ κ)) :
    afterCloseInv x (⟨r₁, clock, sup, recvLoop, pc₁⟩ : System τ ρ κ) := by
  simp only [afterCloseInv, hv] at h ⊢
  obtain ⟨h1, h2, h3, h4, _, h6, h7⟩ := h
  exact ⟨h1, h2, h3, h4, hpc, h6, h7⟩

theorem afterCloseInv_sup (x : Nat) (r r₁ : StreamReceiver τ ρ κ) (clock : Int)
    (pc pc₁ : SupPc) (recvLoop : RecvPc) (sendLoop : SendPc)
    (hv : view r₁ = view r) (hpc : pc₁.closePending = 0)
    (h : afterCloseInv x (⟨r, clock, pc, recvLoop, sendLoop⟩ : System τ ρ κ)) :
    afterCloseInv x (⟨r₁, clock, pc₁, recvLoop, sendLoop⟩ : System τ ρ κ) := by
  simp only [afterCloseInv, hv] at h ⊢
  obtain ⟨h1, h2, _, h4, h5, h6, h7⟩ := h
  exact ⟨h1, h2, hpc, h4, h5, h6, h7⟩

theorem afterCloseInv_step (T : ExecutableTaskTracker τ κ) (x : Nat) (a : Action τ ρ)
    (s : System τ ρ κ) (hspawn : spawnInv s) (h : afterCloseInv x s) :
    afterCloseInv x (step T a s) := by
  rcases s with ⟨r, clock, sup, recvLoop, sendLoop⟩
  simp only [spawnInv] at hspawn
  have hstatus : (view r).status = .Stopped := h.2.1
  cases a with
  | setClock t => exact afterCloseInv_recv x _ _ _ _ _ _ _ _ rfl h.2.2.2.1 id h
  | taskUpdate f =>
    exact afterCloseInv_recv x _ _ _ _ _ _ _ _ (view_setTracker _ _) h.2.2.2.1 id h
  | callStart =>
    cases sup
    · simp only [step, callStart, status_eq_view, hstatus]
      exact h
    · exact h
    · exact h
  | callStop =>
    cases sup
    · obtain ⟨hv, hp⟩ := view_stopStep T .cas r
      obtain ⟨q1, q2⟩ := stop_quiet .cas (view r) hstatus rfl
      simp only [step, callStop]
      exact afterCloseInv_sup x _ _ _ _ _ _ _ (hv.trans q1)
        (by rw [supAfterStop_closePending, hp]; exact q2) h
    · exact h
    · exact h
  | supStep =>
    cases sup with
    | idle => exact h
    | start p =>
      cases p
      · obtain ⟨hsend, hrecv⟩ := hspawn.2.1 rfl
        subst hsend hrecv
        simp only [step, supStep]
        exact afterCloseInv_send x _ _ _ _ _ _ _ rfl rfl
          (afterCloseInv_sup x _ _ _ _ _ _ _ (view_startGoSend r) rfl h)
      · have hrecv := hspawn.2.2 rfl
        subst hrecv
        simp only [step, supStep]
        exact afterCloseInv_recv x _ _ _ _ _ _ _ _ rfl rfl (by simp [RecvPc.inIteration])
          (afterCloseInv_sup x _ _ _ _ _ _ _ (view_startGoRecv r) rfl h)
      · simp only [step, supStep]
        exact afterCloseInv_sup x _ _ _ _ _ _ _ (view_startLog r) rfl h
    | stop p =>
      obtain ⟨hv, hp⟩ := view_stopStep T p r
      obtain ⟨q1, q2⟩ := stop_quiet p (view r) hstatus h.2.2.1
      simp only [step, supStep]
      exact afterCloseInv_sup x _ _ _ _ _ _ _ (hv.trans q1)
        (by rw [supAfterStop_closePending, hp]; exact q2) h
  | recvStep =>
    cases recvLoop with
    | loopHead =>
      simp only [step, recvEventLoop]
      split <;>
        exact afterCloseInv_recv x _ _ _ _ _ _ _ _ rfl rfl (by simp [RecvPc.inIteration]) h
    | computeDelay sct =>
      simp only [step, recvEventLoop]
      split <;>
        exact afterCloseInv_recv x _ _ _ _ _ _ _ _ rfl rfl (by simp [RecvPc.inIteration]) h
    | replace =>
      simp only [afterCloseInv, step, recvEventLoop, view_replaceStream] at h ⊢
      obtain ⟨h1, h2, h3, _, h5, h6, h7⟩ := h
      refine ⟨h1, h2, h3, rfl, h5, by omega, Or.inr ⟨by omega, ?_⟩⟩
      rcases h7 with ⟨_, h7⟩ | ⟨_, h7⟩
      · simp [h7]
      · simp only [List.map_append, List.mem_append]
        exact Or.inl h7
    | deferred p =>
      obtain ⟨hv, hp⟩ := view_stopStep T p r
      obtain ⟨q1, q2⟩ := stop_quiet p (view r) hstatus h.2.2.2.1
      simp only [step, recvEventLoop]
      exact afterCloseInv_recv x _ _ _ _ _ _ _ _ (hv.trans q1)
        (by rw [recvAfterStop_closePending, hp]; exact q2) (by simp [RecvPc.inIteration]) h
    | notStarted => exact h
    | lockSnapshot =>
      exact afterCloseInv_recv x _ _ _ _ _ _ _ _ rfl rfl (by simp [RecvPc.inIteration]) h
    | callRecv _ _ => exact h
    | range _ _ => exact h
    | enterSelect _ =>
      exact afterCloseInv_recv x _ _ _ _ _ _ _ _ rfl rfl (by simp [RecvPc.inIteration]) h
    | select _ => exact h
    | exited => exact h
  | recvCall err =>
    cases recvLoop <;> cases err <;> simp only [step, processMessagesRecv] <;>
      first
      | exact h
      | exact afterCloseInv_recv x _ _ _ _ _ _ _ _ (view_processRecv _ _ _) rfl
          (by simp [RecvPc.inIteration]) h
  | recvElem e =>
    cases recvLoop <;> rcases e with _ | ⟨resp, _ | err⟩ <;> simp only [step, processMessagesRange] <;>
      first
      | exact h
      | exact afterCloseInv_recv x _ _ _ _ _ _ _ _ (view_processClosed _) rfl
          (by simp [RecvPc.inIteration]) h
      | exact afterCloseInv_recv x _ _ _ _ _ _ _ _ (view_processErr _) rfl
          (by simp [RecvPc.inIteration]) h
      | exact afterCloseInv_recv x _ _ _ _ _ _ _ _ (view_processResp _ _ _) rfl
          (by simp [RecvPc.inIteration]) h
  | recvWake w =>
    cases recvLoop <;> cases w <;> simp only [step, recvEventLoopSelect] <;> (try split) <;> exact h
  | sendWake w =>
    cases sendLoop <;> cases w <;> simp only [step, sendEventLoopSelect] <;> (try split) <;> exact h
  | sendStep sendErr =>
    cases sendLoop with
    | ackMessage stream =>
      exact afterCloseInv_send x _ _ _ _ _ _ _ (view_ackMessage _ _ _ _) rfl h
    | deferred p =>
      obtain ⟨hv, hp⟩ := view_stopStep T p r
      obtain ⟨q1, q2⟩ := stop_quiet p (view r) hstatus h.2.2.2.2.1
      simp only [step, sendEventLoop]
      exact afterCloseInv_send x _ _ _ _ _ _ _ (hv.trans q1)
        (by rw [sendAfterStop_closePending, hp]; exact q2) h
    | lockSnapshot => exact afterCloseInv_send x _ _ _ _ _ _ _ rfl rfl h
    | _ => exact h

theorem afterCloseInv_run (T : ExecutableTaskTracker τ κ) (x : Nat) (acts : List (Action τ ρ)) :
    ∀ s : System τ ρ κ, spawnInv s → afterCloseInv x s → afterCloseInv x (run T acts s) := by
  induction acts with
  | nil => intro s _ h; exact h
  | cons a acts ih =>
    intro s h1 h2
    rw [run_cons]
    exact ih _ (spawnInv_step T a s h1) (afterCloseInv_step T x a s h1 h2)

theorem afterCloseInv_of_close (T : ExecutableTaskTracker τ κ) (s : System τ ρ κ)
    (hinv : closeInv s) (hclose : s.sup = .stop .close)
    (hiter : s.recvLoop.inIteration = true) :
    afterCloseInv s.r.stream (step T .supStep s) ∧ s.r.stream ∉ replacedStreams s.r.trace := by
  rcases s with ⟨r, clock, sup, recvLoop, sendLoop⟩
  simp only at hclose hiter
  subst hclose
  obtain ⟨hv, hp⟩ := view_stopStep T .close r
  simp only [closeInv, closeInvV, SupPc.closePending, StopPc.closePending] at hinv
  obtain ⟨h1, h2, h3, h4, h5⟩ := hinv
  have hlen : (view r).closed.length = 0 := by omega
  have hclosed : (view r).closed = [] := List.length_eq_zero.mp hlen
  have hrecv : recvLoop.closePending = 0 := by omega
  have hsend : sendLoop.closePending = 0 := by omega
  have hstatus : (view r).status = .Stopped := by
    by_contra hs
    have := h1 hs
    omega
  constructor
  · simp only [afterCloseInv, step, supStep, hv, hp, StopPc.viewAfter, StopPc.next, hclosed,
      List.nil_append, supAfterStop, SupPc.closePending, StopPc.closePending]
    exact ⟨rfl, hstatus, trivial, hrecv, hsend, h3, Or.inl ⟨hiter, rfl⟩⟩
  · intro hmem
    simp only [replacedStreams, List.mem_map] at hmem
    obtain ⟨n, hn, hn1⟩ := hmem
    have := h5 n hn
    rw [hn1] at this
    exact (lt_irrefl _ this)

theorem iteration_ends_by_replace (T : ExecutableTaskTracker τ κ) (a : Action τ ρ)
    (s : System τ ρ κ) (hspawn : spawnInv s) (hit : s.recvLoop.inIteration = true) :
    (step T a s).recvLoop.inIteration = true ∨
      (s.recvLoop = .replace ∧ (step T a s).recvLoop = .loopHead ∧
        (step T a s).r.stream = s.r.nextStream ∧
        (step T a s).r.nextStream = s.r.nextStream + 1 ∧
        (step T a s).r.streamCreationTime = s.clock) := by
  rcases s with ⟨r, clock, sup, recvLoop, sendLoop⟩
  simp only [spawnInv] at hspawn
  simp only at hit
  cases a with
  | setClock t => exact Or.inl hit
  | taskUpdate f => exact Or.inl hit
  | callStart =>
    cases sup <;> simp only [step, callStart] <;> (try split) <;> exact Or.inl hit
  | callStop =>
    cases sup <;> simp only [step, callStop] <;> exact Or.inl hit
  | supStep =>
    cases sup with
    | idle => exact Or.inl hit
    | start p =>
      cases p
      · exact Or.inl hit
      · have hrecv := hspawn.2.2 rfl
        subst hrecv
        simp [RecvPc.inIteration] at hit
      · exact Or.inl hit
    | stop p => exact Or.inl hit
  | recvStep =>
    cases recvLoop with
    | replace => exact Or.inr ⟨rfl, rfl, rfl, rfl, rfl⟩
    | computeDelay sct =>
      simp only [step, recvEventLoop]
      split <;> exact Or.inl rfl
    | lockSnapshot => exact Or.inl rfl
    | enterSelect _ => exact Or.inl rfl
    | callRecv _ _ => exact Or.inl rfl
    | range _ _ => exact Or.inl rfl
    | select _ => exact Or.inl rfl
    | _ => simp [RecvPc.inIteration] at hit
  | recvCall err =>
    cases recvLoop <;> simp only [RecvPc.inIteration, Bool.false_eq_true] at hit <;>
      cases err <;> exact Or.inl rfl
  | recvElem e =>
    cases recvLoop <;> simp only [RecvPc.inIteration, Bool.false_eq_true] at hit <;>
      rcases e with _ | ⟨resp, _ | err⟩ <;> exact Or.inl rfl
  | recvWake w =>
    cases recvLoop <;> simp only [RecvPc.inIteration, Bool.false_eq_true] at hit <;>
      cases w <;> simp only [step, recvEventLoopSelect] <;> (try split) <;> exact Or.inl rfl
  | sendWake w =>
    cases sendLoop <;> cases w <;> simp only [step, sendEventLoopSelect] <;> (try split) <;>
      exact Or.inl hit
  | sendStep sendErr =>
    cases sendLoop <;> exact Or.inl hit

/-- C10 (as stated): in the schedule `stopDuringBackoff`, `Stop` signals
shutdown while `recvEventLoop` waits in its backoff `select`; the loop wakes
up, replaces stream 0 by stream 1 and exits before `Stop` reaches its
`Close()`, which therefore closes stream 1: the stream `Stop` closed is not
replaced afterwards, and the stream field finally holds a stream on which the
receiver did call `Close()`. -/
theorem stop_closes_replacement :
    (run specTracker (stopDuringBackoff.take 11) scenarioSystem).recvLoop = .select 10 ∧
      (run specTracker (stopDuringBackoff.take 11) scenarioSystem).r.shutdownChan = true ∧
      (run specTracker (stopDuringBackoff.take 11) scenarioSystem).sup = .stop .close ∧
      (run specTracker stopDuringBackoff scenarioSystem).recvLoop = .exited ∧
      (run specTracker stopDuringBackoff scenarioSystem).sup = .idle ∧
      (run specTracker stopDuringBackoff scenarioSystem).r.stream = 1 ∧
      replacedStreams (run specTracker stopDuringBackoff scenarioSystem).r.trace = [0] ∧
      closedStreams (run specTracker stopDuringBackoff scenarioSystem).r.trace = [1] := by
  decide

/-- C10 (amended): every iteration of `recvEventLoop` that was entered stays
inside the iteration until its replacement statement, which installs the
stream returned by `newStream` and the clock reading as `streamCreationTime`
whether or not shutdown was signalled; a signalled shutdown lets the backoff
`select` return. So for every run in which `Stop` executes its `Close()` while
the loop is inside an iteration, once the loop has exited: that `Close()` is
the only one of the run, the closed stream was current and not yet replaced
at that moment and has been replaced afterwards, and the stream field holds a
stream on which the receiver never called `Close()`. -/
theorem stop_inside_iteration (T : ExecutableTaskTracker τ κ)
    (processToolBox : ProcessToolBox ρ κ) (sourceShardKey targetShardKey : ClusterShardKey)
    (tracker : τ) (now : Int) (before after : List (Action τ ρ))
    (hclose : (run T before
      (initSystem processToolBox sourceShardKey targetShardKey tracker now)).sup = .stop .close)
    (hiter : (run T before
      (initSystem processToolBox sourceShardKey targetShardKey tracker now)).recvLoop.inIteration
        = true)
    (hexit : (run T after (step T .supStep (run T before
      (initSystem processToolBox sourceShardKey targetShardKey tracker now)))).recvLoop
        = .exited) :
    (let s₁ := run T before (initSystem processToolBox sourceShardKey targetShardKey tracker now)
     let s₃ := run T after (step T .supStep s₁)
     closedStreams s₃.r.trace = [s₁.r.stream] ∧
       s₁.r.stream ∉ replacedStreams s₁.r.trace ∧
       s₁.r.stream ∈ replacedStreams s₃.r.trace ∧
       s₃.r.stream ≠ s₁.r.stream ∧
       s₃.r.stream ∉ closedStreams s₃.r.trace) ∧
    (∀ (acts : List (Action τ ρ)) (a : Action τ ρ),
      let s := run T acts (initSystem processToolBox sourceShardKey targetShardKey tracker now)
      s.recvLoop.inIteration = true →
        (step T a s).recvLoop.inIteration = true ∨
          (s.recvLoop = .replace ∧ (step T a s).recvLoop = .loopHead ∧
            (step T a s).r.stream = s.r.nextStream ∧
            (step T a s).r.nextStream = s.r.nextStream + 1 ∧
            (step T a s).r.streamCreationTime = s.clock)) ∧
    (∀ (s : System τ ρ κ) (deadline : Int), s.recvLoop = .select deadline →
      s.r.shutdownChan = true → (step T (.recvWake .shutdown) s).recvLoop = .replace) := by
  obtain ⟨hi1, hi2⟩ := closeInv_init processToolBox sourceShardKey targetShardKey tracker now
  refine ⟨?_, ?_, ?_⟩
  · obtain ⟨hs1, hc1⟩ := closeInv_run T before _ hi1 hi2
    obtain ⟨k1, k2⟩ := afterCloseInv_of_close T _ hc1 hclose hiter
    have k3 := afterCloseInv_run T _ after _ (spawnInv_step T .supStep _ hs1) k1
    obtain ⟨m1, _, _, _, _, _, m7⟩ := k3
    rcases m7 with ⟨m7, _⟩ | ⟨m8, m9⟩
    · rw [hexit] at m7
      simp [RecvPc.inIteration] at m7
    · refine ⟨m1, k2, m9, m8, ?_⟩
      intro hmem
      have m1' : closedStreams _ = [_] := m1
      rw [m1', List.mem_singleton] at hmem
      exact m8 hmem
  · intro acts a s hit
    exact iteration_ends_by_replace T a s (closeInv_run T acts _ hi1 hi2).1 hit
  · intro s deadline hpc hsh
    rcases s with ⟨r, clock, sup, recvLoop, sendLoop⟩
    simp only at hpc hsh
    subst hpc
    simp [step, recvEventLoopSelect, hsh]

/-- C10 (amended), instance: in `stopInsideIteration` followed by the `Close()`
and `finishAfterClose`, `Stop` closes stream 0 while the loop is about to call
`Recv`; stream 0 is the only stream closed and the loop ends on stream 1. -/
theorem stop_inside_iteration_witness :
    (run specTracker stopInsideIteration scenarioSystem).sup = .stop .close ∧
      (run specTracker stopInsideIteration scenarioSystem).recvLoop.inIteration = true ∧
      (run specTracker finishAfterClose
        (step specTracker .supStep
          (run specTracker stopInsideIteration scenarioSystem))).recvLoop = .exited ∧
      closedStreams (run specTracker finishAfterClose
        (step specTracker .supStep
          (run specTracker stopInsideIteration scenarioSystem))).r.trace = [0] ∧
      (run specTracker finishAfterClose
        (step specTracker .supStep
          (run specTracker stopInsideIteration scenarioSystem))).r.stream ≠ 0 :=
  ⟨by decide, by decide, by decide,
    (stop_inside_iteration specTracker scenarioToolBox (NewClusterShardKey "a" 1)
      (NewClusterShardKey "b" 2) NewExecutableTaskTracker 0 stopInsideIteration finishAfterClose
      (by decide) (by decide) (by decide)).1.1,
    (stop_inside_iteration specTracker scenarioToolBox (NewClusterShardKey "a" 1)
      (NewClusterShardKey "b" 2) NewExecutableTaskTracker 0 stopInsideIteration finishAfterClose
      (by decide) (by decide) (by decide)).1.2.2.2.1⟩

theorem viewAfter_fields (p : StopPc) (v : View) :
    (p.viewAfter v).minReconnect = v.minReconnect ∧ (p.viewAfter v).installs = v.installs ∧
      (p.viewAfter v).streamCreationTime = v.streamCreationTime := by
  cases p <;> simp only [StopPc.viewAfter] <;> (try split) <;> simp

theorem reconnectInv_of_view (m : Int) (r r₁ : StreamReceiver τ ρ κ) (clock : Int)
    (sup sup₁ : SupPc) (pc : RecvPc) (sendLoop sendLoop₁ : SendPc)
    (hv : (view r₁).minReconnect = (view r).minReconnect ∧
      (view r₁).installs = (view r).installs ∧
      (view r₁).streamCreationTime = (view r).streamCreationTime)
    (h : reconnectInv m (⟨r, clock, sup, pc, sendLoop⟩ : System τ ρ κ)) :
    reconnectInv m (⟨r₁, clock, sup₁, pc, sendLoop₁⟩ : System τ ρ κ) := by
  simp only [reconnectInv, hv.1, hv.2.1, hv.2.2] at h ⊢
  exact h

theorem reconnectInv_recv (m : Int) (r r₁ : StreamReceiver τ ρ κ) (clock : Int)
    (sup : SupPc) (pc pc₁ : RecvPc) (sendLoop : SendPc) (hv : view r₁ = view r)
    (hpc : pc.delayInv m (view r).streamCreationTime clock →
      pc₁.delayInv m (view r).streamCreationTime clock)
    (h : reconnectInv m (⟨r, clock, sup, pc, sendLoop⟩ : System τ ρ κ)) :
    reconnectInv m (⟨r₁, clock, sup, pc₁, sendLoop⟩ : System τ ρ κ) := by
  simp only [reconnectInv, hv] at h ⊢
  exact ⟨h.1, h.2.1, hpc h.2.2⟩

theorem view_stopStep_fields (T : ExecutableTaskTracker τ κ) (p : StopPc)
    (r : StreamReceiver τ ρ κ) :
    (view (stopStep T p r).2).minReconnect = (view r).minReconnect ∧
      (view (stopStep T p r).2).installs = (view r).installs ∧
      (view (stopStep T p r).2).streamCreationTime = (view r).streamCreationTime := by
  rw [(view_stopStep T p r).1]
  exact viewAfter_fields p (view r)

theorem reconnectInv_step (T : ExecutableTaskTracker τ κ) (m : Int) (a : Action τ ρ)
    (s : System τ ρ κ) (hclock : clockAdvances a s = true) (hwake : noShutdownWake a s = true)
    (h : reconnectInv m s) : reconnectInv m (step T a s) := by
  rcases s with ⟨r, clock, sup, recvLoop, sendLoop⟩
  cases a with
  | setClock t =>
    simp only [clockAdvances, decide_eq_true_eq] at hclock
    simp only [reconnectInv, step] at h ⊢
    refine ⟨h.1, h.2.1, ?_⟩
    have h3 := h.2.2
    cases recvLoop <;> simp only [RecvPc.delayInv] at h3 ⊢ <;> omega
  | taskUpdate f =>
    exact reconnectInv_of_view m _ _ _ _ _ _ _ _
      (by rw [view_setTracker]; exact ⟨rfl, rfl, rfl⟩) h
  | callStart =>
    cases sup <;> simp only [step, callStart] <;> (try split) <;> exact h
  | callStop =>
    cases sup <;> simp only [step, callStop] <;>
      first
      | exact h
      | exact reconnectInv_of_view m _ _ _ _ _ _ _ _ (view_stopStep_fields T _ r) h
  | supStep =>
    cases sup with
    | idle => exact h
    | start p =>
      cases p
      · simp only [step, supStep]
        exact reconnectInv_of_view m _ _ _ _ _ _ _ _
          (by rw [view_startGoSend]; exact ⟨rfl, rfl, rfl⟩) h
      · simp only [reconnectInv, step, supStep, view_startGoRecv] at h ⊢
        exact ⟨h.1, h.2.1, trivial⟩
      · simp only [step, supStep]
        exact reconnectInv_of_view m _ _ _ _ _ _ _ _
          (by rw [view_startLog]; exact ⟨rfl, rfl, rfl⟩) h
    | stop p =>
      simp only [step, supStep]
      exact reconnectInv_of_view m _ _ _ _ _ _ _ _ (view_stopStep_fields T _ r) h
  | recvStep =>
    cases recvLoop with
    | loopHead =>
      simp only [step, recvEventLoop]
      split <;> exact reconnectInv_recv m _ _ _ _ _ _ _ rfl (fun _ => trivial) h
    | lockSnapshot =>
      exact reconnectInv_recv m _ _ _ _ _ _ _ rfl (fun _ => rfl) h
    | computeDelay sct =>
      simp only [reconnectInv, step, recvEventLoop, RecvPc.delayInv, minReconnect_eq_view] at h ⊢
      obtain ⟨h1, h2, h3⟩ := h
      split
      · refine ⟨h1, h2, ?_⟩
        simp only [RecvPc.delayInv]
        omega
      · refine ⟨h1, h2, ?_⟩
        simp only [RecvPc.delayInv]
        omega
    | enterSelect delay =>
      exact reconnectInv_recv m _ _ _ _ _ _ _ rfl (fun hd => hd) h
    | replace =>
      simp only [reconnectInv, step, recvEventLoop, view_replaceStream, RecvPc.delayInv,
        List.mem_append, List.mem_singleton] at h ⊢
      obtain ⟨h1, h2, h3⟩ := h
      refine ⟨h1, ?_, trivial⟩
      intro n hn
      rcases hn with hn | hn
      · exact h2 n hn
      · subst hn
        exact h3
    | deferred p =>
      simp only [reconnectInv, step, recvEventLoop] at h ⊢
      obtain ⟨q1, q2, q3⟩ := view_stopStep_fields T p r
      rw [q1, q2]
      refine ⟨h.1, h.2.1, ?_⟩
      cases p <;> simp only [stopStep] <;> (try split) <;> exact trivial
    | notStarted => exact h
    | callRecv _ _ => exact h
    | range _ _ => exact h
    | select _ => exact h
    | exited => exact h
  | recvCall err =>
    cases recvLoop <;> cases err <;> simp only [step, processMessagesRecv] <;>
      first
      | exact h
      | exact reconnectInv_recv m _ _ _ _ _ _ _ (view_processRecv _ _ _) (fun hd => hd) h
  | recvElem e =>
    cases recvLoop <;> rcases e with _ | ⟨resp, _ | err⟩ <;> simp only [step, processMessagesRange] <;>
      first
      | exact h
      | exact reconnectInv_recv m _ _ _ _ _ _ _ (view_processClosed _) (fun hd => hd) h
      | exact reconnectInv_recv m _ _ _ _ _ _ _ (view_processErr _) (fun hd => hd) h
      | exact reconnectInv_recv m _ _ _ _ _ _ _ (view_processResp _ _ _) (fun hd => hd) h
  | recvWake w =>
    cases recvLoop with
    | select deadline =>
      cases w with
      | timer =>
        simp only [step, recvEventLoopSelect]
        split
        · rename_i hle
          refine reconnectInv_recv m _ _ _ _ _ _ _ rfl (fun hd => ?_) h
          simp only [RecvPc.delayInv] at hd ⊢
          omega
        · exact h
      | shutdown => simp [noShutdownWake] at hwake
    | _ => exact h
  | sendWake w =>
    cases sendLoop <;> cases w <;> simp only [step, sendEventLoopSelect] <;> (try split) <;> exact h
  | sendStep sendErr =>
    cases sendLoop with
    | ackMessage stream =>
      simp only [step, sendEventLoop]
      exact reconnectInv_of_view m _ _ _ _ _ _ _ _
        (by rw [view_ackMessage]; exact ⟨rfl, rfl, rfl⟩) h
    | deferred p =>
      simp only [step, sendEventLoop]
      exact reconnectInv_of_view m _ _ _ _ _ _ _ _ (view_stopStep_fields T _ r) h
    | lockSnapshot => exact reconnectInv_of_view m _ _ _ _ _ _ _ _ ⟨rfl, rfl, rfl⟩ h
    | _ => exact h

theorem reconnectInv_run (T : ExecutableTaskTracker τ κ) (m : Int) (acts : List (Action τ ρ)) :
    ∀ s : System τ ρ κ, runAll T clockAdvances acts s = true →
      runAll T noShutdownWake acts s = true → reconnectInv m s →
      reconnectInv m (run T acts s) := by
  induction acts with
  | nil => intro s _ _ h; exact h
  | cons a acts ih =>
    intro s h1 h2 h
    simp only [runAll, Bool.and_eq_true] at h1 h2
    rw [run_cons]
    exact ih _ h1.2 h2.2 (reconnectInv_step T m a s h1.1 h2.1 h)

theorem mem_newStreams (l : List (Event κ)) (old fresh : Nat) (oldCreation freshCreation : Int) :
    Event.newStream old fresh oldCreation freshCreation ∈ l →
      (old, fresh, oldCreation, freshCreation) ∈ newStreams l := by
  induction l with
  | nil => intro h; simp at h
  | cons e l ih =>
    intro h
    rcases List.mem_cons.mp h with h1 | h1
    · subst h1
      simp [newStreams]
    · cases e <;> simp [newStreams, ih h1]

/-- C6: along every schedule in which the clock never goes back and the
backoff `select` of `recvEventLoop` is never left through the shutdown case,
every replacement records a `streamCreationTime` that is at least the
previous `streamCreationTime` plus `MinReconnectDuration`; and when the
computed delay is not positive, that is when the previous stream has lived
for at least `MinReconnectDuration`, the loop goes to the replacement without
entering the `select`. -/
theorem reconnect_floor (T : ExecutableTaskTracker τ κ) (processToolBox : ProcessToolBox ρ κ)
    (sourceShardKey targetShardKey : ClusterShardKey) (tracker : τ) (now : Int)
    (acts : List (Action τ ρ))
    (hclock : runAll T clockAdvances acts
      (initSystem processToolBox sourceShardKey targetShardKey tracker now) = true)
    (hwake : runAll T noShutdownWake acts
      (initSystem processToolBox sourceShardKey targetShardKey tracker now) = true) :
    (∀ (old fresh : Nat) (oldCreation freshCreation : Int),
      Event.newStream old fresh oldCreation freshCreation ∈
          (run T acts
            (initSystem processToolBox sourceShardKey targetShardKey tracker now)).r.trace →
        oldCreation + processToolBox.ReplicationStreamMinReconnectDuration ≤ freshCreation) ∧
    (∀ streamCreationTime : Int,
      (run T acts (initSystem processToolBox sourceShardKey targetShardKey tracker now)).recvLoop
          = .computeDelay streamCreationTime →
        streamCreationTime =
            (run T acts
              (initSystem processToolBox sourceShardKey targetShardKey tracker now)).r.streamCreationTime ∧
          (streamCreationTime + processToolBox.ReplicationStreamMinReconnectDuration -
              (run T acts
                (initSystem processToolBox sourceShardKey targetShardKey tracker now)).clock ≤ 0 →
            (step T .recvStep
              (run T acts
                (initSystem processToolBox sourceShardKey targetShardKey tracker now))).recvLoop
              = .replace)) := by
  have h0 : reconnectInv processToolBox.ReplicationStreamMinReconnectDuration
      (initSystem processToolBox sourceShardKey targetShardKey tracker now) := by
    simp [reconnectInv, initSystem, view, NewStreamReceiver, newStreams, RecvPc.delayInv]
  have h := reconnectInv_run T _ acts _ hclock hwake h0
  generalize run T acts (initSystem processToolBox sourceShardKey targetShardKey tracker now)
    = s at h
  rcases s with ⟨r, clock, sup, recvLoop, sendLoop⟩
  simp only [reconnectInv] at h
  obtain ⟨h1, h2, h3⟩ := h
  refine ⟨?_, ?_⟩
  · intro old fresh oldCreation freshCreation hmem
    exact h2 _ (mem_newStreams _ _ _ _ _ hmem)
  · intro sct hpc
    simp only at hpc
    subst hpc
    simp only [RecvPc.delayInv] at h3
    refine ⟨h3, ?_⟩
    intro hdelay
    simp only at hdelay
    have hm : r.toolBox.ReplicationStreamMinReconnectDuration =
        processToolBox.ReplicationStreamMinReconnectDuration := h1
    simp only [step, recvEventLoop, hm]
    rw [if_neg (by omega)]

/-- C6, instance: in `reconnectTwice` the clock never goes back and no
shutdown occurs; the streams are created at 0, 12 and 30, with a minimal
reconnect duration of 10. -/
theorem reconnect_floor_witness :
    runAll specTracker clockAdvances reconnectTwice scenarioSystem = true ∧
      runAll specTracker noShutdownWake reconnectTwice scenarioSystem = true ∧
      newStreams (run specTracker reconnectTwice scenarioSystem).r.trace =
        [(0, 1, 0, 12), (1, 2, 12, 30)] ∧
      (∀ (old fresh : Nat) (oldCreation freshCreation : Int),
        Event.newStream old fresh oldCreation freshCreation ∈
            (run specTracker reconnectTwice scenarioSystem).r.trace →
          oldCreation + 10 ≤ freshCreation) :=
  ⟨by decide, by decide, by decide,
    (reconnect_floor specTracker scenarioToolBox (NewClusterShardKey "a" 1)
      (NewClusterShardKey "b" 2) NewExecutableTaskTracker 0 reconnectTwice
      (by decide) (by decide)).1⟩

/-- C7 (amended), instance: in `reconnectThenStop` the receiver calls `Close()`
once; after nine actions the loop is at its replacement statement, which
installs stream 1 and leaves the closed streams as they are. -/
theorem close_only_by_stop_witness :
    (closedStreams (run specTracker reconnectThenStop scenarioSystem).r.trace).length ≤ 1 ∧
      (run specTracker (reconnectThenStop.take 9) scenarioSystem).recvLoop = .replace ∧
      (step specTracker .recvStep
        (run specTracker (reconnectThenStop.take 9) scenarioSystem)).r.stream = 1 :=
  ⟨(close_only_by_stop specTracker scenarioToolBox (NewClusterShardKey "a" 1)
      (NewClusterShardKey "b" 2) NewExecutableTaskTracker 0 reconnectThenStop).1,
    by decide,
    ((close_only_by_stop specTracker scenarioToolBox (NewClusterShardKey "a" 1)
      (NewClusterShardKey "b" 2) NewExecutableTaskTracker 0
      (reconnectThenStop.take 9)).2.2.1 (by decide)).1⟩

theorem rangeActions_run (T : ExecutableTaskTracker τ κ) (streamCreationTime : Int)
    (stream : Nat) (clock : Int) (sup : SupPc) (sendLoop : SendPc)
    (elems : List (StreamResp ρ)) :
    ∀ r : StreamReceiver τ ρ κ,
      run T (rangeActions elems)
          (⟨r, clock, sup, .range streamCreationTime stream, sendLoop⟩ : System τ ρ κ) =
        ⟨(rangeLoop T elems r).2, clock, sup, .computeDelay streamCreationTime, sendLoop⟩ := by
  induction elems with
  | nil => intro r; rfl
  | cons e rest ih =>
    intro r
    rcases e with ⟨resp, _ | err⟩
    · simp only [rangeActions, run_cons, step, processMessagesRange, rangeLoop]
      exact ih _
    · rfl

/-- The statements by which `recvEventLoop` runs `processMessages` have the
effect of `processMessages`. -/
theorem recvActions_run (T : ExecutableTaskTracker τ κ) (streamCreationTime : Int)
    (stream : Nat) (clock : Int) (sup : SupPc) (sendLoop : SendPc)
    (recv : Except GoError (List (StreamResp ρ))) (r : StreamReceiver τ ρ κ) :
    run T (recvActions recv)
        (⟨r, clock, sup, .callRecv streamCreationTime stream, sendLoop⟩ : System τ ρ κ) =
      ⟨(processMessages T stream recv r).2, clock, sup, .computeDelay streamCreationTime,
        sendLoop⟩ := by
  cases recv with
  | error err => rfl
  | ok elems =>
    simp only [recvActions, run_cons, step, processMessagesRecv, processMessages]
    exact rangeActions_run T streamCreationTime stream clock sup sendLoop elems _

end Interleaving

end Replication
